import Mathlib

/-!
# qfractals: the Mandelbrot specification, its colour provider and the orbit environment

Shallow embedding of `trunk/fractals/mandelbrot.cpp`.

* The numeric template parameter `T` (`qreal` / `long double`) is a type with the operations
  the code uses (`+ - * / <`, conversion from `int`); no law is assumed on them unless a theorem
  says so, hence the control-flow theorems hold for every arithmetic whose operations are
  functions.  `V` stands for `float`.
* `log` is the library logarithm, `toFloat` the narrowing conversion `T → float`.
* Arrays (`xs_`, `ys_`, `ops`, `regs`) are index functions; the write pointers `xn`, `yn` are
  offsets from the start of `xs_`, `ys_`.
* The `INTERPRET` macro, `Interpreter<T>` and `ColorPalette` are declared outside the available
  sources: the macro is a parameter, the two classes are records of the members that
  `mandelbrot.cpp` calls.  The base constructor `RenderingGenerator<T>` is a parameter of the
  generator constructor; `RenderingGenerator.new` is that constructor as the spec describes it.
* `IEEE` (exact finite values) and `Binary64` (rounded finite values) are two arithmetics with
  NaN and infinities at which `T` is instantiated in examples.
-/

namespace QFractals

/-! ## Collaborators declared outside `mandelbrot.cpp` -/

/-- The four colour components written through the reference parameters `r, g, b, a`. -/
structure RGBA (V : Type) where
  r : V
  g : V
  b : V
  a : V

/-- Modelled from the spec: class `ColorPalette` is not in the sources; the only member used is
`color(val, r, g, b, a)`, a lookup of the four components at a value. -/
structure ColorPalette (V : Type) where
  color : V → RGBA V

/-- The accumulators an opcode updates in place: the new sample `nr, ni` and the register
bank `regs`. -/
structure Accu (T : Type) where
  nr : T
  ni : T
  regs : Nat → T

/-- Modelled from the spec: the `INTERPRET(op, nr, ni, cr, ci, zr, zi, i, xs_, ys_, regs)` macro
is not in the sources.  One opcode reads the constant `cr, ci`, the previous sample `zr, zi`, the
iteration index and the two history arrays, and updates the accumulators. -/
abbrev OpMacro (T : Type) :=
  Nat → Accu T → T → T → T → T → Int → (Nat → T) → (Nat → T) → Accu T

/-- Modelled from the spec: class `Interpreter<T>` is not in the sources; the members used by
`calc` are `interpret` (one warm-up step: returns the updated `nr, ni`), `opCount`, `initOps`
(the contents it gives the local array `ops`) and `initRegs` (likewise for `regs`). -/
structure Interpreter (T : Type) where
  interpret : T → T → T → T → T → T → Int → (Nat → T) → (Nat → T) → T × T
  opCount : Int
  initOps : Nat → Nat
  initRegs : Nat → T

/-! ## `Mandelbrot<T>` -/

/-- Data members of `Mandelbrot<T>`; `t` is the transformation handed to the base class
`Rendering<T>`. -/
structure Mandelbrot (Tr T V : Type) where
  t : Tr
  base_ : List (Interpreter T)
  iteration_ : Interpreter T
  maxIterations_ : Int
  bailout_ : T
  epsilon_ : T
  bailoutPalette_ : ColorPalette V

/-- Constructor `Mandelbrot<T>::Mandelbrot`: a member-initialiser list and an empty body. -/
def Mandelbrot.new {Tr T V : Type} (t : Tr) (base : List (Interpreter T))
    (iteration : Interpreter T) (maxIterations : Int) (bailout epsilon : T)
    (bailoutPalette : ColorPalette V) : Mandelbrot Tr T V :=
  { t := t
    base_ := base
    iteration_ := iteration
    maxIterations_ := maxIterations
    bailout_ := bailout
    epsilon_ := epsilon
    bailoutPalette_ := bailoutPalette }

/-- Method `Mandelbrot<T>::color(type, val, r, g, b, a)`. -/
def Mandelbrot.color {Tr T V : Type} [IntCast V] [OfScientific V] [LT V]
    [∀ a b : V, Decidable (a < b)] [Div V] (log : V → V)
    (spec : Mandelbrot Tr T V) (type : Nat) (val : V) : RGBA V :=
  if type = 1 then
    let val := if val > 2.7183 then val / log val else val
    spec.bailoutPalette_.color val
  else
    { r := ((0 : Int) : V), g := ((0 : Int) : V), b := ((0 : Int) : V), a := ((1 : Int) : V) }

/-- The configuration error with which a constructor rejects its arguments. -/
inductive ConfigError where
  | invalidDimensions : ConfigError
  deriving DecidableEq

/-- Base-class part of a generator, as `RenderingGenerator<T>` leaves it: the image dimensions,
the thread count, the specification it points to, and the colour provider of its image. -/
structure RenderingGenerator (Tr T V : Type) where
  width : Int
  height : Int
  threadCount : Int
  spec : Mandelbrot Tr T V
  colorProvider : Option (Mandelbrot Tr T V)

/-- Modelled from the spec: the constructor `RenderingGenerator<T>(width, height, threadCount,
&spec)` is not in the sources.  The spec has zero or negative dimensions "rejected at
Specification/Generator construction with a configuration error; never silently clamped";
otherwise the arguments are recorded as they are. -/
def RenderingGenerator.new {Tr T V : Type} (width height threadCount : Int)
    (spec : Mandelbrot Tr T V) : Except ConfigError (RenderingGenerator Tr T V) :=
  if width ≤ 0 ∨ height ≤ 0 then
    Except.error ConfigError.invalidDimensions
  else
    Except.ok
      { width := width, height := height, threadCount := threadCount, spec := spec
        colorProvider := none }

/-- Modelled from the spec: `img().setColorProvider(&spec_)` is not in the sources; it records
the colour provider of the image. -/
def RenderingGenerator.setColorProvider {Tr T V : Type} (g : RenderingGenerator Tr T V)
    (spec : Mandelbrot Tr T V) : RenderingGenerator Tr T V :=
  { g with colorProvider := some spec }

/-- Generator built by `MandelbrotGenerator<T>::MandelbrotGenerator`: the base-class part and
the copy `spec_` of the specification. -/
structure MandelbrotGenerator (G Tr T V : Type) where
  rendering : G
  spec_ : Mandelbrot Tr T V

/-- Constructor `MandelbrotGenerator<T>::MandelbrotGenerator(width, height, spec)`: the base
constructor is called with `(width, height, 2, &spec)`; if it fails, so does the construction,
with the same error; otherwise `spec_` is copied and the body calls
`img().setColorProvider(&spec_)`.  The base constructor and `setColorProvider` are outside the
sources and are parameters. -/
def MandelbrotGenerator.new {E G Tr T V : Type}
    (baseConstructor : Int → Int → Int → Mandelbrot Tr T V → Except E G)
    (setColorProvider : G → Mandelbrot Tr T V → G)
    (width height : Int) (spec : Mandelbrot Tr T V) : Except E (MandelbrotGenerator G Tr T V) :=
  match baseConstructor width height 2 spec with
  | Except.error err => Except.error err
  | Except.ok g => Except.ok { rendering := setColorProvider g spec, spec_ := spec }

/-- Method `Mandelbrot<T>::createGenerator(width, height)`:
`return new MandelbrotGenerator<T>(width, height, *this)`. -/
def Mandelbrot.createGenerator {E G Tr T V : Type}
    (baseConstructor : Int → Int → Int → Mandelbrot Tr T V → Except E G)
    (setColorProvider : G → Mandelbrot Tr T V → G)
    (spec : Mandelbrot Tr T V) (width height : Int) : Except E (MandelbrotGenerator G Tr T V) :=
  MandelbrotGenerator.new baseConstructor setColorProvider width height spec

/-! ## `MandelbrotEnv<T>` -/

/-- Number of entries of each of the two history arrays allocated by the constructor. -/
def historyCapacity : Nat := 10240

/-- Data members of `MandelbrotEnv<T>`. -/
structure MandelbrotEnv (Tr T V : Type) where
  spec_ : Mandelbrot Tr T V
  xs_ : Nat → T
  ys_ : Nat → T
  n_ : Int

/-- Constructor `MandelbrotEnv<T>::MandelbrotEnv(spec)`: `new T[10240]` twice.  The fresh arrays
and `n_` are not initialised; their indeterminate contents are the last three arguments. -/
def MandelbrotEnv.new {Tr T V : Type} (spec : Mandelbrot Tr T V)
    (xs0 ys0 : Nat → T) (n0 : Int) : MandelbrotEnv Tr T V :=
  { spec_ := spec, xs_ := xs0, ys_ := ys0, n_ := n0 }

/-- Local variables of `calc` that change while it runs, the contents of the two history
arrays, and the record `writes` of the index pairs `(xn - xs_, yn - ys_)` stored to so far. -/
structure CalcState (T : Type) where
  nr : T
  ni : T
  zr : T
  zi : T
  regs : Nat → T
  xs : Nat → T
  ys : Nat → T
  xn : Nat
  yn : Nat
  writes : List (Nat × Nat)

/-- What `calc` leaves behind: the reference parameters `type` and `value`, the member `n_`,
the history arrays, and the record of the indices stored to. -/
structure CalcOut (T V : Type) where
  type : Nat
  value : V
  n_ : Int
  xs_ : Nat → T
  ys_ : Nat → T
  writes : List (Nat × Nat)

section Calc

variable {Tr T V : Type}
variable [IntCast T] [Add T] [Sub T] [Mul T] [Div T] [LT T] [∀ a b : T, Decidable (a < b)]
variable [IntCast V]

/-- The statements `(*xn) = nr; (*yn) = ni; xn++; yn++;`. -/
def store (s : CalcState T) : CalcState T :=
  { s with
    xs := Function.update s.xs s.xn s.nr
    ys := Function.update s.ys s.yn s.ni
    writes := s.writes ++ [(s.xn, s.yn)]
    xn := s.xn + 1
    yn := s.yn + 1 }

/-- One pass of the warm-up loop (lines 156-162): interpret the base formula, store the sample,
and copy it to `zr, zi`. -/
def warmStep (cr ci : T) (b : Interpreter T) (i : Nat) (s : CalcState T) : CalcState T :=
  let n := b.interpret s.nr s.ni cr ci s.zr s.zi (i : Int) s.xs s.ys
  let s1 := store { s with nr := n.1, ni := n.2 }
  { s1 with zr := s1.nr, zi := s1.ni }

/-- The warm-up loop `for(int i = 0; i < spec_.base().size(); i++)`, from index `i` over the
remaining base formulas. -/
def warmup (cr ci : T) : List (Interpreter T) → Nat → CalcState T → CalcState T
  | [], _, s => s
  | b :: rest, i, s => warmup cr ci rest (i + 1) (warmStep cr ci b i s)

/-- The inner loop `for(int j = 0; j < count; j++) INTERPRET(ops[j], ...)`. -/
def runOps (INTERPRET : OpMacro T) (ops : Nat → Nat) (count : Int) (cr ci : T) (i : Nat)
    (s : CalcState T) : CalcState T :=
  let acc := (List.range count.toNat).foldl
    (fun a j => INTERPRET (ops j) a cr ci s.zr s.zi (i : Int) s.xs s.ys)
    { nr := s.nr, ni := s.ni, regs := s.regs }
  { s with nr := acc.nr, ni := acc.ni, regs := acc.regs }

/-- Lines 176-185 of iteration `i`: run the opcodes and store the new sample. -/
def body (INTERPRET : OpMacro T) (ops : Nat → Nat) (count : Int) (cr ci : T) (i : Nat)
    (s : CalcState T) : CalcState T :=
  store (runOps INTERPRET ops count cr ci i s)

/-- `radSqr = nr * nr + ni * ni` (line 188). -/
def radSqr (s : CalcState T) : T := s.nr * s.nr + s.ni * s.ni

/-- `deltaSqr = dr * dr + di * di` with `dr = zr - nr`, `di = zi - ni` (lines 201-204). -/
def deltaSqr (s : CalcState T) : T :=
  let dr := s.zr - s.nr
  let di := s.zi - s.ni
  dr * dr + di * di

/-- The main loop `for(int i = ...; i < maxIter; i++)` from index `i` with `fuel` passes left
(`fuel = maxIter - i`), followed by the "Lake" exit. -/
def loop (log : T → T) (toFloat : T → V) (INTERPRET : OpMacro T) (ops : Nat → Nat)
    (count : Int) (cr ci bailoutSqr epsSqr : T) (maxIter : Int) :
    Nat → Nat → CalcState T → CalcOut T V
  | 0, _, s =>
    { type := 0, value := ((0 : Int) : V), n_ := maxIter,
      xs_ := s.xs, ys_ := s.ys, writes := s.writes }
  | fuel + 1, i, s =>
    let s1 := body INTERPRET ops count cr ci i s
    let radSqr := radSqr s1
    if radSqr > bailoutSqr then
      { type := 1
        value := toFloat ((((i : Int) + 1 : Int) : T)
          + ((1 : Int) : T) / log ((2 : Int) : T)
            * log (log ((256 : Int) : T) / log radSqr))
        n_ := (i : Int) + 1
        xs_ := s1.xs, ys_ := s1.ys, writes := s1.writes }
    else
      if deltaSqr s1 < epsSqr then
        { type := 0, value := ((0 : Int) : V), n_ := (i : Int) + 1,
          xs_ := s1.xs, ys_ := s1.ys, writes := s1.writes }
      else
        loop log toFloat INTERPRET ops count cr ci bailoutSqr epsSqr maxIter fuel (i + 1)
          { s1 with zr := s1.nr, zi := s1.ni }

/-- State of `calc` when the warm-up loop starts (lines 133-147): `zr = zi = nr = ni = 0`, the
write pointers at the start of the arrays.  The register array is filled only after the
warm-up loop; until then nothing reads it. -/
def initState (env : MandelbrotEnv Tr T V) : CalcState T :=
  { nr := ((0 : Int) : T), ni := ((0 : Int) : T), zr := ((0 : Int) : T), zi := ((0 : Int) : T)
    regs := env.spec_.iteration_.initRegs
    xs := env.xs_, ys := env.ys_, xn := 0, yn := 0, writes := [] }

/-- State of `calc` when the main loop starts (line 171). -/
def loopStart (env : MandelbrotEnv Tr T V) (x y : T) : CalcState T :=
  warmup x y env.spec_.base_ 0 (initState env)

/-- Method `MandelbrotEnv<T>::calc(x, y, type, value)`. -/
def MandelbrotEnv.calc (log : T → T) (toFloat : T → V) (INTERPRET : OpMacro T)
    (env : MandelbrotEnv Tr T V) (x y : T) : CalcOut T V :=
  let maxIter := env.spec_.maxIterations_
  let bailoutSqr := env.spec_.bailout_ * env.spec_.bailout_
  let epsSqr := env.spec_.epsilon_ * env.spec_.epsilon_
  let size := env.spec_.base_.length
  loop log toFloat INTERPRET env.spec_.iteration_.initOps env.spec_.iteration_.opCount
    x y bailoutSqr epsSqr maxIter (maxIter - (size : Int)).toNat size (loopStart env x y)

/-! ## The orbit without the stop tests

To say "the first iteration at which a test fires" the samples have to be named independently
of the early returns of `calc`: `orbit` runs passes of the main loop with the two `if`s
removed. -/

/-- One pass of the main loop when neither test fires: lines 176-185, then `zr = nr; zi = ni`. -/
def advance (INTERPRET : OpMacro T) (ops : Nat → Nat) (count : Int) (cr ci : T) (i : Nat)
    (s : CalcState T) : CalcState T :=
  let s1 := body INTERPRET ops count cr ci i s
  { s1 with zr := s1.nr, zi := s1.ni }

/-- State after `k` passes of the main loop, started at index `i` in state `s`, none of which
returned. -/
def orbit (INTERPRET : OpMacro T) (ops : Nat → Nat) (count : Int) (cr ci : T) :
    Nat → Nat → CalcState T → CalcState T
  | 0, _, s => s
  | k + 1, i, s => orbit INTERPRET ops count cr ci k (i + 1) (advance INTERPRET ops count cr ci i s)

/-- State of `calc` at the two tests of iteration `i` (for `i ≥ spec_.base().size()`), provided
no earlier iteration returned: `nr, ni` hold the new sample, `zr, zi` the previous one. -/
def sampleAt (INTERPRET : OpMacro T) (env : MandelbrotEnv Tr T V) (x y : T) (i : Nat) :
    CalcState T :=
  body INTERPRET env.spec_.iteration_.initOps env.spec_.iteration_.opCount x y i
    (orbit INTERPRET env.spec_.iteration_.initOps env.spec_.iteration_.opCount x y
      (i - env.spec_.base_.length) env.spec_.base_.length (loopStart env x y))

/-- State of `calc` after warm-up step `k` (for `k < spec_.base().size()`): `nr, ni` hold the
sample of that step. -/
def warmSampleAt (env : MandelbrotEnv Tr T V) (x y : T) (k : Nat) : CalcState T :=
  warmup x y (env.spec_.base_.take (k + 1)) 0 (initState env)

/-- The bailout test of iteration `i` fires: `radSqr > bailoutSqr`. -/
def bailsAt (INTERPRET : OpMacro T) (env : MandelbrotEnv Tr T V) (x y : T) (i : Nat) : Prop :=
  radSqr (sampleAt INTERPRET env x y i) > env.spec_.bailout_ * env.spec_.bailout_

/-- The epsilon test of iteration `i` would fire: `deltaSqr < epsSqr`. -/
def convergesAt (INTERPRET : OpMacro T) (env : MandelbrotEnv Tr T V) (x y : T) (i : Nat) :
    Prop :=
  deltaSqr (sampleAt INTERPRET env x y i) < env.spec_.epsilon_ * env.spec_.epsilon_

instance (INTERPRET : OpMacro T) (env : MandelbrotEnv Tr T V) (x y : T) (i : Nat) :
    Decidable (bailsAt INTERPRET env x y i) := by
  unfold bailsAt; infer_instance

instance (INTERPRET : OpMacro T) (env : MandelbrotEnv Tr T V) (x y : T) (i : Nat) :
    Decidable (convergesAt INTERPRET env x y i) := by
  unfold convergesAt; infer_instance

/-! ## Formulas used in examples -/

/-- Modelled from the spec: the classic formula `z → z² + c` as the effect of its opcode on the
accumulators, `nr = zr² - zi² + cr`, `ni = 2·zr·zi + ci`. -/
def classicOp : OpMacro T :=
  fun _ a cr ci zr zi _ _ _ =>
    { a with nr := zr * zr - zi * zi + cr, ni := ((2 : Int) : T) * zr * zi + ci }

/-- Modelled from the spec: the identity formula `z → z`. -/
def identityOp : OpMacro T :=
  fun _ a _ _ zr zi _ _ _ => { a with nr := zr, ni := zi }

/-- An iteration formula of one opcode (number 0) with registers cleared. -/
def oneOp : Interpreter T :=
  { interpret := fun nr ni _ _ _ _ _ _ _ => (nr, ni)
    opCount := 1
    initOps := fun _ => 0
    initRegs := fun _ => ((0 : Int) : T) }

/-- A palette that returns the lookup value in all four components. -/
def greyPalette : ColorPalette V :=
  { color := fun v => { r := v, g := v, b := v, a := v } }

/-- The configuration of the end-to-end example with its three numbers left open: no warm-up
formula, a one-opcode iteration, the given `maxIterations`, bailout radius and epsilon; history
arrays cleared. -/
def exampleEnv (maxIterations : Int) (bailout epsilon : T) : MandelbrotEnv Unit T V :=
  MandelbrotEnv.new
    (Mandelbrot.new () [] oneOp maxIterations bailout epsilon greyPalette)
    (fun _ => ((0 : Int) : T)) (fun _ => ((0 : Int) : T)) 0

/-- The stores so far went to the indices `0, 1, ..., xn - 1` of both arrays, in this order, and
the two write pointers have the same offset. -/
def Tracked (s : CalcState T) : Prop :=
  s.yn = s.xn ∧ s.writes = (List.range s.xn).map (fun k => (k, k))

end Calc

/-! ## Non-finite values -/

/-- The values of an IEEE 754 binary format as far as the stop tests of `calc` can tell them
apart: NaN, the two infinities, and the finite values.  Finite arithmetic is exact (rounding,
overflow and the sign of zero are left out); every operation with a NaN or an infinite operand
follows IEEE 754. -/
inductive IEEE where
  | nan : IEEE
  | ninf : IEEE
  | fin (q : ℚ) : IEEE
  | pinf : IEEE
  deriving DecidableEq

namespace IEEE

/-- The infinity with the sign of `s`; NaN when `s = 0` (as for `0 * ∞`). -/
def signed (s : ℚ) : IEEE :=
  if s = 0 then nan else if 0 < s then pinf else ninf

/-- A rational with the sign of the value (0 for NaN). -/
def sgn : IEEE → ℚ
  | nan => 0
  | ninf => -1
  | fin q => q
  | pinf => 1

/-- IEEE addition: NaN propagates, `∞ + (-∞)` is NaN. -/
def add : IEEE → IEEE → IEEE
  | nan, _ => nan
  | _, nan => nan
  | fin a, fin b => fin (a + b)
  | pinf, ninf => nan
  | ninf, pinf => nan
  | pinf, _ => pinf
  | _, pinf => pinf
  | ninf, _ => ninf
  | _, ninf => ninf

/-- IEEE negation. -/
def neg : IEEE → IEEE
  | nan => nan
  | ninf => pinf
  | fin a => fin (-a)
  | pinf => ninf

/-- IEEE subtraction. -/
def sub (a b : IEEE) : IEEE := add a (neg b)

/-- IEEE multiplication: NaN propagates, `0 * ∞` is NaN, otherwise the signs multiply. -/
def mul : IEEE → IEEE → IEEE
  | nan, _ => nan
  | _, nan => nan
  | fin a, fin b => fin (a * b)
  | a, b => signed (sgn a * sgn b)

/-- IEEE division: NaN propagates, `0 / 0` and `∞ / ∞` are NaN, `a / 0` is infinite for
`a ≠ 0`, `a / ∞` is 0 for finite `a`. -/
def div : IEEE → IEEE → IEEE
  | nan, _ => nan
  | _, nan => nan
  | fin a, fin b => if b = 0 then signed a else fin (a / b)
  | fin _, _ => fin 0
  | a, fin b => if b = 0 then a else signed (sgn a * b)
  | _, _ => nan

/-- IEEE `<`: false whenever an operand is NaN. -/
def blt : IEEE → IEEE → Bool
  | nan, _ => false
  | _, nan => false
  | fin a, fin b => decide (a < b)
  | ninf, ninf => false
  | ninf, _ => true
  | _, ninf => false
  | pinf, _ => false
  | _, pinf => true

instance : IntCast IEEE := ⟨fun n => fin n⟩
instance : Add IEEE := ⟨add⟩
instance : Sub IEEE := ⟨sub⟩
instance : Mul IEEE := ⟨mul⟩
instance : Div IEEE := ⟨div⟩
instance : LT IEEE := ⟨fun a b => blt a b = true⟩
instance (a b : IEEE) : Decidable (a < b) := inferInstanceAs (Decidable (blt a b = true))

/-- The value is an infinity. -/
def isInf : IEEE → Bool
  | pinf => true
  | ninf => true
  | _ => false

end IEEE

/-! ## Rounded arithmetic -/

/-- Number of binary digits of `n` (0 for 0); `fuel` bounds the number of halvings. -/
def bitLengthAux : Nat → Nat → Nat
  | 0, _ => 0
  | fuel + 1, n => if n = 0 then 0 else bitLengthAux fuel (n / 2) + 1

/-- Number of binary digits of `n`: the least `k` with `n < 2^k`. -/
def bitLength (n : Nat) : Nat := bitLengthAux n n

/-- The quotient `n / 2^s` rounded to the nearest integer, ties to the even one. -/
def roundNearestEven (n s : Nat) : Nat :=
  if s = 0 then n
  else
    let q := n / 2 ^ s
    let r := n % 2 ^ s
    let half := 2 ^ (s - 1)
    if r < half then q
    else if half < r then q + 1
    else if q % 2 = 0 then q else q + 1

/-- The values of IEEE 754 binary64 (`double`, the type behind `qreal`): NaN, the two
infinities, and the finite values `m * 2^e`.  Every operation returns the exact result rounded
to nearest, ties to even, to 53 significant bits with exponent at least -1074, and overflows
to an infinity from `2^1024` on, as the format prescribes; only the sign of zero is left
out. -/
inductive Binary64 where
  | nan : Binary64
  | ninf : Binary64
  | fin (m e : Int) : Binary64
  | pinf : Binary64
  deriving DecidableEq

namespace Binary64

/-- The binary64 value nearest to `± n * 2^e` (`negative` gives the sign). -/
def round (negative : Bool) (n : Nat) (e : Int) : Binary64 :=
  if n = 0 then fin 0 0
  else
    let s := (max ((bitLength n : Int) - 53) (-1074 - e)).toNat
    let q := roundNearestEven n s
    let e1 := e + (s : Int)
    if (bitLength q : Int) + e1 > 1024 then (if negative then ninf else pinf)
    else fin (if negative then -(q : Int) else (q : Int)) e1

/-- The infinity with the sign of `s`; NaN when `s = 0` (as for `0 * ∞`). -/
def signed (s : Int) : Binary64 :=
  if s = 0 then nan else if 0 < s then pinf else ninf

/-- An integer with the sign of the value (0 for NaN). -/
def sgn : Binary64 → Int
  | nan => 0
  | ninf => -1
  | fin m _ => m
  | pinf => 1

/-- The rational number a finite value stands for (0 for the others). -/
def toRat : Binary64 → ℚ
  | fin m e => (m : ℚ) * (2 : ℚ) ^ e
  | _ => 0

/-- Addition: exact sum of the two finite values, rounded; NaN propagates, `∞ + (-∞)` is
NaN. -/
def add : Binary64 → Binary64 → Binary64
  | nan, _ => nan
  | _, nan => nan
  | fin m1 e1, fin m2 e2 =>
    let e := min e1 e2
    let m := m1 * 2 ^ (e1 - e).toNat + m2 * 2 ^ (e2 - e).toNat
    round (decide (m < 0)) m.natAbs e
  | pinf, ninf => nan
  | ninf, pinf => nan
  | pinf, _ => pinf
  | _, pinf => pinf
  | ninf, _ => ninf
  | _, ninf => ninf

/-- Negation (exact). -/
def neg : Binary64 → Binary64
  | nan => nan
  | ninf => pinf
  | fin m e => fin (-m) e
  | pinf => ninf

/-- Subtraction. -/
def sub (a b : Binary64) : Binary64 := add a (neg b)

/-- Multiplication: exact product of the two finite values, rounded; NaN propagates, `0 * ∞`
is NaN, otherwise the signs multiply. -/
def mul : Binary64 → Binary64 → Binary64
  | nan, _ => nan
  | _, nan => nan
  | fin m1 e1, fin m2 e2 => round (decide (m1 * m2 < 0)) (m1 * m2).natAbs (e1 + e2)
  | a, b => signed (sgn a * sgn b)

/-- Division: the quotient of two finite values is computed to more than 64 bits with a sticky
last bit and rounded; `0 / 0` and `∞ / ∞` are NaN, `a / 0` is infinite for `a ≠ 0`, `a / ∞` is
0 for finite `a`. -/
def div : Binary64 → Binary64 → Binary64
  | nan, _ => nan
  | _, nan => nan
  | fin m1 e1, fin m2 e2 =>
    if m2 = 0 then signed m1
    else
      let p := 64 + bitLength m2.natAbs
      let q := (m1.natAbs * 2 ^ p) / m2.natAbs
      let r := (m1.natAbs * 2 ^ p) % m2.natAbs
      round (decide (m1 * m2 < 0)) (2 * q + (if r = 0 then 0 else 1)) (e1 - e2 - (p : Int) - 1)
  | fin _ _, _ => fin 0 0
  | a, fin m _ => if m = 0 then a else signed (sgn a * m)
  | _, _ => nan

/-- Comparison `<`: false whenever an operand is NaN. -/
def blt : Binary64 → Binary64 → Bool
  | nan, _ => false
  | _, nan => false
  | fin m1 e1, fin m2 e2 =>
    let e := min e1 e2
    decide (m1 * 2 ^ (e1 - e).toNat < m2 * 2 ^ (e2 - e).toNat)
  | ninf, ninf => false
  | ninf, _ => true
  | _, ninf => false
  | pinf, _ => false
  | _, pinf => true

instance : IntCast Binary64 := ⟨fun n => round (decide (n < 0)) n.natAbs 0⟩
instance : Add Binary64 := ⟨add⟩
instance : Sub Binary64 := ⟨sub⟩
instance : Mul Binary64 := ⟨mul⟩
instance : Div Binary64 := ⟨div⟩
instance : LT Binary64 := ⟨fun a b => blt a b = true⟩
instance (a b : Binary64) : Decidable (a < b) := inferInstanceAs (Decidable (blt a b = true))

end Binary64

/-! ## Lemmas about the main loop -/

set_option linter.unusedSectionVars false

section LoopSkip

variable {Tr T V : Type}
variable [IntCast T] [Add T] [Sub T] [Mul T] [Div T] [LT T] [∀ a b : T, Decidable (a < b)]
variable [IntCast V]

/-- Passes of the main loop in which neither test fires can be skipped: the loop continues from
the state `orbit` gives. -/
theorem loop_skip (log : T → T) (toFloat : T → V) (INTERPRET : OpMacro T) (ops : Nat → Nat)
    (count : Int) (cr ci bailoutSqr epsSqr : T) (maxIter : Int) (fuel : Nat) :
    ∀ (k i : Nat) (s : CalcState T),
      (∀ j, j < k →
        ¬ radSqr (body INTERPRET ops count cr ci (i + j)
            (orbit INTERPRET ops count cr ci j i s)) > bailoutSqr ∧
        ¬ deltaSqr (body INTERPRET ops count cr ci (i + j)
            (orbit INTERPRET ops count cr ci j i s)) < epsSqr) →
      loop log toFloat INTERPRET ops count cr ci bailoutSqr epsSqr maxIter (k + fuel) i s =
        loop log toFloat INTERPRET ops count cr ci bailoutSqr epsSqr maxIter fuel (i + k)
          (orbit INTERPRET ops count cr ci k i s) := by
  intro k
  induction k with
  | zero => intro i s _; simp [orbit]
  | succ k ih =>
    intro i s h
    have h0 := h 0 (Nat.succ_pos k)
    simp only [Nat.add_zero, orbit] at h0
    have hk : k + 1 + fuel = (k + fuel) + 1 := by omega
    rw [hk, loop]
    simp only [if_neg h0.1, if_neg h0.2]
    have ih2 := ih (i + 1) (advance INTERPRET ops count cr ci i s) (by
      intro j hj
      have := h (j + 1) (Nat.succ_lt_succ hj)
      simpa only [orbit, Nat.add_assoc, Nat.add_comm 1 j] using this)
    have e : i + 1 + k = i + (k + 1) := by omega
    rw [e] at ih2
    simpa only [orbit, advance] using ih2

end LoopSkip

section WriteTracking


variable {Tr T V : Type}
variable [IntCast T] [Add T] [Sub T] [Mul T] [Div T] [LT T] [∀ a b : T, Decidable (a < b)]
variable [IntCast V]

theorem tracked_store (s : CalcState T) (h : Tracked s) :
    Tracked (store s) ∧ (store s).xn = s.xn + 1 := by
  obtain ⟨h1, h2⟩ := h
  refine ⟨⟨?_, ?_⟩, rfl⟩
  · simp [store, h1]
  · simp [store, h1, h2, List.range_succ]

theorem tracked_warmStep (cr ci : T) (b : Interpreter T) (i : Nat) (s : CalcState T)
    (h : Tracked s) :
    Tracked (warmStep cr ci b i s) ∧ (warmStep cr ci b i s).xn = s.xn + 1 := by
  have := tracked_store
    { s with nr := (b.interpret s.nr s.ni cr ci s.zr s.zi (i : Int) s.xs s.ys).1,
             ni := (b.interpret s.nr s.ni cr ci s.zr s.zi (i : Int) s.xs s.ys).2 } h
  exact this

theorem tracked_warmup (cr ci : T) (l : List (Interpreter T)) :
    ∀ (i : Nat) (s : CalcState T), Tracked s →
      Tracked (warmup cr ci l i s) ∧ (warmup cr ci l i s).xn = s.xn + l.length := by
  induction l with
  | nil => intro i s h; exact ⟨h, rfl⟩
  | cons b rest ih =>
    intro i s h
    obtain ⟨h1, h2⟩ := tracked_warmStep cr ci b i s h
    obtain ⟨h3, h4⟩ := ih (i + 1) _ h1
    refine ⟨h3, ?_⟩
    simp only [warmup, h4, h2, List.length_cons]
    omega

theorem tracked_body (INTERPRET : OpMacro T) (ops : Nat → Nat) (count : Int) (cr ci : T)
    (i : Nat) (s : CalcState T) (h : Tracked s) :
    Tracked (body INTERPRET ops count cr ci i s) ∧
      (body INTERPRET ops count cr ci i s).xn = s.xn + 1 :=
  tracked_store (runOps INTERPRET ops count cr ci i s) h

theorem tracked_orbit (INTERPRET : OpMacro T) (ops : Nat → Nat) (count : Int) (cr ci : T) :
    ∀ (k i : Nat) (s : CalcState T), Tracked s →
      Tracked (orbit INTERPRET ops count cr ci k i s) ∧
        (orbit INTERPRET ops count cr ci k i s).xn = s.xn + k := by
  intro k
  induction k with
  | zero => intro i s h; exact ⟨h, rfl⟩
  | succ k ih =>
    intro i s h
    obtain ⟨h1, h2⟩ := tracked_body INTERPRET ops count cr ci i s h
    have h1' : Tracked (advance INTERPRET ops count cr ci i s) := h1
    have h2' : (advance INTERPRET ops count cr ci i s).xn = s.xn + 1 := h2
    obtain ⟨h3, h4⟩ := ih (i + 1) _ h1'
    refine ⟨h3, ?_⟩
    simp only [orbit, h4, h2']
    omega

theorem tracked_loopStart (env : MandelbrotEnv Tr T V) (x y : T) :
    Tracked (loopStart env x y) ∧ (loopStart env x y).xn = env.spec_.base_.length := by
  have h0 : Tracked (initState env) := ⟨rfl, rfl⟩
  obtain ⟨h1, h2⟩ := tracked_warmup x y env.spec_.base_ 0 (initState env) h0
  refine ⟨h1, ?_⟩
  rw [loopStart, h2]
  simp [initState]

/-- Whatever the main loop does, the indices it stores to are `0 .. m - 1` for some `m` between
the offset it started with and that offset plus the number of passes allowed. -/
theorem loop_writes (log : T → T) (toFloat : T → V) (INTERPRET : OpMacro T) (ops : Nat → Nat)
    (count : Int) (cr ci bailoutSqr epsSqr : T) (maxIter : Int) :
    ∀ (fuel i : Nat) (s : CalcState T), Tracked s →
      ∃ m, s.xn ≤ m ∧ m ≤ s.xn + fuel ∧
        (loop log toFloat INTERPRET ops count cr ci bailoutSqr epsSqr maxIter fuel i s).writes
          = (List.range m).map (fun k => (k, k)) := by
  intro fuel
  induction fuel with
  | zero => intro i s h; exact ⟨s.xn, le_refl _, le_refl _, h.2⟩
  | succ fuel ih =>
    intro i s h
    obtain ⟨h1, h2⟩ := tracked_body INTERPRET ops count cr ci i s h
    rw [loop]
    split_ifs with hb hc
    · exact ⟨s.xn + 1, by omega, by omega, by rw [← h2]; exact h1.2⟩
    · exact ⟨s.xn + 1, by omega, by omega, by rw [← h2]; exact h1.2⟩
    · have h1' : Tracked
          { body INTERPRET ops count cr ci i s with
            zr := (body INTERPRET ops count cr ci i s).nr,
            zi := (body INTERPRET ops count cr ci i s).ni } := h1
      obtain ⟨m, hm1, hm2, hm3⟩ := ih (i + 1) _ h1'
      refine ⟨m, ?_, ?_, hm3⟩
      · have : (body INTERPRET ops count cr ci i s).xn ≤ m := hm1
        omega
      · have : m ≤ (body INTERPRET ops count cr ci i s).xn + fuel := hm2
        omega

/-- If no test fires at the iterations before `i`, `calc` reaches iteration `i` in the state
that `orbit` describes. -/
theorem calc_reaches (log : T → T) (toFloat : T → V) (INTERPRET : OpMacro T)
    (env : MandelbrotEnv Tr T V) (x y : T) (i : Nat)
    (hlo : env.spec_.base_.length ≤ i) (hhi : (i : Int) ≤ env.spec_.maxIterations_)
    (hfirst : ∀ j, env.spec_.base_.length ≤ j → j < i →
      ¬ bailsAt INTERPRET env x y j ∧ ¬ convergesAt INTERPRET env x y j) :
    env.calc log toFloat INTERPRET x y =
      loop log toFloat INTERPRET env.spec_.iteration_.initOps env.spec_.iteration_.opCount
        x y (env.spec_.bailout_ * env.spec_.bailout_) (env.spec_.epsilon_ * env.spec_.epsilon_)
        env.spec_.maxIterations_ (env.spec_.maxIterations_ - (i : Int)).toNat i
        (orbit INTERPRET env.spec_.iteration_.initOps env.spec_.iteration_.opCount x y
          (i - env.spec_.base_.length) env.spec_.base_.length (loopStart env x y)) := by
  have hf : (env.spec_.maxIterations_ - (env.spec_.base_.length : Int)).toNat
      = (i - env.spec_.base_.length) + (env.spec_.maxIterations_ - (i : Int)).toNat := by
    omega
  have hi : env.spec_.base_.length + (i - env.spec_.base_.length) = i := by omega
  unfold MandelbrotEnv.calc
  simp only [hf]
  rw [loop_skip, hi]
  intro j hj
  have := hfirst (env.spec_.base_.length + j) (by omega) (by omega)
  simpa only [bailsAt, convergesAt, sampleAt, Nat.add_sub_cancel_left] using this

end WriteTracking

section StopBranches


variable {Tr T V : Type}
variable [IntCast T] [Add T] [Sub T] [Mul T] [Div T] [LT T] [∀ a b : T, Decidable (a < b)]
variable [IntCast V]

/-- Result of `calc` when the bailout test fires first at iteration `i`. -/
theorem calc_of_first_bail (log : T → T) (toFloat : T → V) (INTERPRET : OpMacro T)
    (env : MandelbrotEnv Tr T V) (x y : T) (i : Nat)
    (hlo : env.spec_.base_.length ≤ i) (hhi : (i : Int) < env.spec_.maxIterations_)
    (hfirst : ∀ j, env.spec_.base_.length ≤ j → j < i →
      ¬ bailsAt INTERPRET env x y j ∧ ¬ convergesAt INTERPRET env x y j)
    (hbail : bailsAt INTERPRET env x y i) :
    (env.calc log toFloat INTERPRET x y).type = 1 ∧
    (env.calc log toFloat INTERPRET x y).value =
      toFloat ((((i : Int) + 1 : Int) : T)
        + ((1 : Int) : T) / log ((2 : Int) : T)
          * log (log ((256 : Int) : T) / log (radSqr (sampleAt INTERPRET env x y i)))) ∧
    (env.calc log toFloat INTERPRET x y).n_ = (i : Int) + 1 := by
  obtain ⟨f, hf⟩ : ∃ f, (env.spec_.maxIterations_ - (i : Int)).toNat = f + 1 :=
    ⟨(env.spec_.maxIterations_ - (i : Int)).toNat - 1, by omega⟩
  rw [calc_reaches log toFloat INTERPRET env x y i hlo (le_of_lt hhi) hfirst, hf, loop]
  have hb : radSqr (sampleAt INTERPRET env x y i)
      > env.spec_.bailout_ * env.spec_.bailout_ := hbail
  unfold sampleAt at hb
  simp only [if_pos hb, sampleAt, and_self]

/-- Result of `calc` when the epsilon test fires first at iteration `i` and the bailout test
does not fire there. -/
theorem calc_of_first_conv (log : T → T) (toFloat : T → V) (INTERPRET : OpMacro T)
    (env : MandelbrotEnv Tr T V) (x y : T) (i : Nat)
    (hlo : env.spec_.base_.length ≤ i) (hhi : (i : Int) < env.spec_.maxIterations_)
    (hfirst : ∀ j, env.spec_.base_.length ≤ j → j < i →
      ¬ bailsAt INTERPRET env x y j ∧ ¬ convergesAt INTERPRET env x y j)
    (hnobail : ¬ bailsAt INTERPRET env x y i)
    (hconv : convergesAt INTERPRET env x y i) :
    (env.calc log toFloat INTERPRET x y).type = 0 ∧
    (env.calc log toFloat INTERPRET x y).value = ((0 : Int) : V) ∧
    (env.calc log toFloat INTERPRET x y).n_ = (i : Int) + 1 ∧
    (env.calc log toFloat INTERPRET x y).writes = (List.range (i + 1)).map (fun k => (k, k)) := by
  obtain ⟨f, hf⟩ : ∃ f, (env.spec_.maxIterations_ - (i : Int)).toNat = f + 1 :=
    ⟨(env.spec_.maxIterations_ - (i : Int)).toNat - 1, by omega⟩
  rw [calc_reaches log toFloat INTERPRET env x y i hlo (le_of_lt hhi) hfirst, hf, loop]
  have hb : ¬ radSqr (sampleAt INTERPRET env x y i)
      > env.spec_.bailout_ * env.spec_.bailout_ := hnobail
  have hc : deltaSqr (sampleAt INTERPRET env x y i)
      < env.spec_.epsilon_ * env.spec_.epsilon_ := hconv
  obtain ⟨t0, x0⟩ := tracked_loopStart env x y
  obtain ⟨t1, x1⟩ := tracked_orbit INTERPRET env.spec_.iteration_.initOps
    env.spec_.iteration_.opCount x y (i - env.spec_.base_.length) env.spec_.base_.length _ t0
  obtain ⟨t2, x2⟩ := tracked_body INTERPRET env.spec_.iteration_.initOps
    env.spec_.iteration_.opCount x y i _ t1
  have hw := t2.2
  rw [x2, x1, x0, Nat.add_sub_cancel' hlo] at hw
  unfold sampleAt at hb hc
  simp only [if_neg hb, if_pos hc, true_and]
  exact hw

/-- Result of `calc` when no test fires at any iteration. -/
theorem calc_of_no_stop (log : T → T) (toFloat : T → V) (INTERPRET : OpMacro T)
    (env : MandelbrotEnv Tr T V) (x y : T)
    (hnone : ∀ j, env.spec_.base_.length ≤ j → (j : Int) < env.spec_.maxIterations_ →
      ¬ bailsAt INTERPRET env x y j ∧ ¬ convergesAt INTERPRET env x y j) :
    (env.calc log toFloat INTERPRET x y).type = 0 ∧
    (env.calc log toFloat INTERPRET x y).value = ((0 : Int) : V) ∧
    (env.calc log toFloat INTERPRET x y).n_ = env.spec_.maxIterations_ ∧
    ((env.spec_.base_.length : Int) ≤ env.spec_.maxIterations_ →
      (env.calc log toFloat INTERPRET x y).writes =
        (List.range env.spec_.maxIterations_.toNat).map (fun k => (k, k))) := by
  by_cases h : (env.spec_.base_.length : Int) ≤ env.spec_.maxIterations_
  · have hlo : env.spec_.base_.length ≤ env.spec_.maxIterations_.toNat := by omega
    have hhi : ((env.spec_.maxIterations_.toNat : Nat) : Int) ≤ env.spec_.maxIterations_ := by
      omega
    have hz : (env.spec_.maxIterations_ - ((env.spec_.maxIterations_.toNat : Nat) : Int)).toNat
        = 0 := by omega
    obtain ⟨t0, x0⟩ := tracked_loopStart env x y
    obtain ⟨t1, x1⟩ := tracked_orbit INTERPRET env.spec_.iteration_.initOps
      env.spec_.iteration_.opCount x y (env.spec_.maxIterations_.toNat - env.spec_.base_.length)
      env.spec_.base_.length _ t0
    have hw := t1.2
    rw [x1, x0, Nat.add_sub_cancel' hlo] at hw
    rw [calc_reaches log toFloat INTERPRET env x y env.spec_.maxIterations_.toNat hlo hhi
      (fun j h1 h2 => hnone j h1 (by omega)), hz, loop]
    exact ⟨rfl, rfl, rfl, fun _ => hw⟩
  · have hz : (env.spec_.maxIterations_ - (env.spec_.base_.length : Int)).toNat = 0 := by omega
    unfold MandelbrotEnv.calc
    simp only [hz, loop, true_and]
    intro h'
    exact absurd h' h

/-- The main loop either runs out (`type = 0`, `n_ = maxIter`) or returns from a pass after
the one it started with. -/
theorem loop_n (log : T → T) (toFloat : T → V) (INTERPRET : OpMacro T) (ops : Nat → Nat)
    (count : Int) (cr ci bailoutSqr epsSqr : T) (maxIter : Int) :
    ∀ (fuel i : Nat) (s : CalcState T),
      ((loop log toFloat INTERPRET ops count cr ci bailoutSqr epsSqr maxIter fuel i s).type = 0 ∧
        (loop log toFloat INTERPRET ops count cr ci bailoutSqr epsSqr maxIter fuel i s).n_ =
          maxIter) ∨
      (i : Int) <
        (loop log toFloat INTERPRET ops count cr ci bailoutSqr epsSqr maxIter fuel i s).n_ := by
  intro fuel
  induction fuel with
  | zero => intro i s; left; exact ⟨rfl, rfl⟩
  | succ fuel ih =>
    intro i s
    rw [loop]
    split_ifs with hb hc
    · right; simp
    · right; simp
    · rcases ih (i + 1) _ with h | h
      · left; exact h
      · right
        have : (i : Int) < ((i + 1 : Nat) : Int) := by omega
        exact lt_trans this h

/-- Passes of `orbit` can be peeled off at the end as well. -/
theorem orbit_succ (INTERPRET : OpMacro T) (ops : Nat → Nat) (count : Int) (cr ci : T) :
    ∀ (k i : Nat) (s : CalcState T),
      orbit INTERPRET ops count cr ci (k + 1) i s =
        advance INTERPRET ops count cr ci (i + k) (orbit INTERPRET ops count cr ci k i s) := by
  intro k
  induction k with
  | zero => intro i s; rfl
  | succ k ih =>
    intro i s
    have := ih (i + 1) (advance INTERPRET ops count cr ci i s)
    have e : i + 1 + k = i + (k + 1) := by omega
    rw [e] at this
    exact this

/-- At iteration `i + 1` the previous sample `zr, zi` is the new sample of iteration `i`. -/
theorem sampleAt_succ_prev (INTERPRET : OpMacro T) (env : MandelbrotEnv Tr T V) (x y : T)
    (i : Nat) (hlo : env.spec_.base_.length ≤ i) :
    (sampleAt INTERPRET env x y (i + 1)).zr = (sampleAt INTERPRET env x y i).nr ∧
    (sampleAt INTERPRET env x y (i + 1)).zi = (sampleAt INTERPRET env x y i).ni := by
  have e : i + 1 - env.spec_.base_.length = (i - env.spec_.base_.length) + 1 := by omega
  have e2 : env.spec_.base_.length + (i - env.spec_.base_.length) = i := by omega
  unfold sampleAt
  rw [e, orbit_succ, e2]
  exact ⟨rfl, rfl⟩

/-- Without warm-up formulas the first iteration starts from `zr = zi = 0`. -/
theorem sampleAt_zero_prev (INTERPRET : OpMacro T) (env : MandelbrotEnv Tr T V) (x y : T)
    (hbase : env.spec_.base_ = []) :
    (sampleAt INTERPRET env x y 0).zr = ((0 : Int) : T) ∧
    (sampleAt INTERPRET env x y 0).zi = ((0 : Int) : T) := by
  unfold sampleAt loopStart
  rw [hbase]
  exact ⟨rfl, rfl⟩

end StopBranches

/-! ## Exact arithmetic: orbits that stay at 0 -/

section FieldHelpers

variable {Tr T V : Type} [LinearOrderedField T] [IntCast V]

/-- With exact arithmetic, a zero sample after a zero sample never passes the bailout test,
and passes the epsilon test exactly when epsilon is not 0. -/
theorem zero_sample_tests (s : CalcState T) (hnr : s.nr = 0) (hni : s.ni = 0) (hzr : s.zr = 0)
    (hzi : s.zi = 0) (b e : T) :
    ¬ radSqr s > b * b ∧ (deltaSqr s < e * e ↔ e ≠ 0) := by
  constructor
  · simp only [radSqr, hnr, hni, mul_zero, add_zero, gt_iff_lt, not_lt]
    exact mul_self_nonneg b
  · simp only [deltaSqr, hnr, hni, hzr, hzi, sub_zero, mul_zero, add_zero]
    constructor
    · intro h he
      rw [he, mul_zero] at h
      exact lt_irrefl _ h
    · intro he
      exact mul_self_pos.mpr he

/-- Without warm-up formulas: if all earlier samples are 0, the previous sample seen by
iteration `i` is 0. -/
theorem prev_zero_of_samples_zero (INTERPRET : OpMacro T) (env : MandelbrotEnv Tr T V)
    (x y : T) (hbase : env.spec_.base_ = []) (i : Nat)
    (h : ∀ j, j < i → (sampleAt INTERPRET env x y j).nr = 0 ∧
      (sampleAt INTERPRET env x y j).ni = 0) :
    (sampleAt INTERPRET env x y i).zr = 0 ∧ (sampleAt INTERPRET env x y i).zi = 0 := by
  cases i with
  | zero =>
    have := sampleAt_zero_prev INTERPRET env x y hbase
    simpa only [Int.cast_zero] using this
  | succ i =>
    have h1 := sampleAt_succ_prev INTERPRET env x y i (by simp [hbase])
    have h2 := h i (Nat.lt_succ_self i)
    rw [h1.1, h1.2]
    exact h2

/-- Without warm-up formulas: if the opcodes of one iteration turn a zero previous sample into
a zero new sample, every sample of the orbit is 0. -/
theorem samples_zero_of_preserved (INTERPRET : OpMacro T) (env : MandelbrotEnv Tr T V)
    (x y : T) (hbase : env.spec_.base_ = [])
    (hpres : ∀ (i : Nat) (s : CalcState T), s.zr = 0 → s.zi = 0 →
      (runOps INTERPRET env.spec_.iteration_.initOps env.spec_.iteration_.opCount x y i s).nr = 0
      ∧ (runOps INTERPRET env.spec_.iteration_.initOps env.spec_.iteration_.opCount x y i s).ni
        = 0) :
    ∀ i, (sampleAt INTERPRET env x y i).nr = 0 ∧ (sampleAt INTERPRET env x y i).ni = 0 := by
  intro i
  induction i using Nat.strong_induction_on with
  | _ i ih =>
    have hz := prev_zero_of_samples_zero INTERPRET env x y hbase i ih
    exact hpres i _ hz.1 hz.2

/-- The classic opcode at `c = 0` turns a zero previous sample into a zero new sample. -/
theorem classicOp_preserves_zero (ops : Nat → Nat) (i : Nat) (s : CalcState T)
    (hzr : s.zr = 0) (hzi : s.zi = 0) :
    (runOps classicOp ops 1 (0 : T) 0 i s).nr = 0 ∧
    (runOps classicOp ops 1 (0 : T) 0 i s).ni = 0 := by
  simp [runOps, classicOp, hzr, hzi, List.range_succ]

/-- The identity opcode turns a zero previous sample into a zero new sample. -/
theorem identityOp_preserves_zero (ops : Nat → Nat) (cr ci : T) (i : Nat) (s : CalcState T)
    (hzr : s.zr = 0) (hzi : s.zi = 0) :
    (runOps identityOp ops 1 cr ci i s).nr = 0 ∧
    (runOps identityOp ops 1 cr ci i s).ni = 0 := by
  simp [runOps, identityOp, hzr, hzi, List.range_succ]

end FieldHelpers

/-! ## Claims about particular formulas -/

section FieldClaims

variable {Tr T V : Type} [LinearOrderedField T] [IntCast V]

/-- C5. No warm-up formula and exact arithmetic: if every iteration returns the sample 0 it
started from (`z = 0` is a fixed point of the formula at this `c`), then for every bailout and
epsilon `calc` returns `type = 0` and `value = 0`; when `epsilon = 0` the epsilon test never
fires and `n_ = maxIterations`. -/
theorem fixed_point_interior (log : T → T) (toFloat : T → V) (INTERPRET : OpMacro T)
    (env : MandelbrotEnv Tr T V) (x y : T)
    (hbase : env.spec_.base_ = [])
    (hfix : ∀ i : Nat, (i : Int) < env.spec_.maxIterations_ →
      (sampleAt INTERPRET env x y i).nr = 0 ∧ (sampleAt INTERPRET env x y i).ni = 0) :
    (env.calc log toFloat INTERPRET x y).type = 0 ∧
    (env.calc log toFloat INTERPRET x y).value = ((0 : Int) : V) ∧
    (env.spec_.epsilon_ = 0 →
      (∀ i : Nat, (i : Int) < env.spec_.maxIterations_ → ¬ convergesAt INTERPRET env x y i) ∧
      (env.calc log toFloat INTERPRET x y).n_ = env.spec_.maxIterations_) := by
  have htests : ∀ i : Nat, (i : Int) < env.spec_.maxIterations_ →
      ¬ bailsAt INTERPRET env x y i ∧
      (convergesAt INTERPRET env x y i ↔ env.spec_.epsilon_ ≠ 0) := by
    intro i hi
    have hz := prev_zero_of_samples_zero INTERPRET env x y hbase i
      (fun j hj => hfix j (by omega))
    exact zero_sample_tests _ (hfix i hi).1 (hfix i hi).2 hz.1 hz.2 _ _
  by_cases he : env.spec_.epsilon_ = 0
  · have hnone : ∀ j, env.spec_.base_.length ≤ j → (j : Int) < env.spec_.maxIterations_ →
        ¬ bailsAt INTERPRET env x y j ∧ ¬ convergesAt INTERPRET env x y j := by
      intro j _ hj
      refine ⟨(htests j hj).1, ?_⟩
      rw [(htests j hj).2]
      exact not_not.mpr he
    have h := calc_of_no_stop log toFloat INTERPRET env x y hnone
    exact ⟨h.1, h.2.1, fun _ => ⟨fun i hi => (hnone i (by simp [hbase]) hi).2, h.2.2.1⟩⟩
  · by_cases hm : (0 : Int) < env.spec_.maxIterations_
    · have h := calc_of_first_conv log toFloat INTERPRET env x y 0 (by simp [hbase])
        (by simpa using hm) (fun j _ hj => absurd hj (Nat.not_lt_zero j))
        (htests 0 (by simpa using hm)).1 ((htests 0 (by simpa using hm)).2.mpr he)
      exact ⟨h.1, h.2.1, fun h0 => absurd h0 he⟩
    · have h := calc_of_no_stop log toFloat INTERPRET env x y
        (fun j _ hj => absurd (lt_of_le_of_lt (Int.ofNat_nonneg j) hj) hm)
      exact ⟨h.1, h.2.1, fun h0 => absurd h0 he⟩

/-- Bailout 2, epsilon 0, 50 iterations: under the classic formula at `c = (0, 0)`, and under
the identity formula at `c = (3, 4)`, every sample is 0 and the point is interior with
`n_ = 50`. -/
theorem fixed_point_interior_witness :
    ((∀ i : Nat, (i : Int) < 50 →
        (sampleAt classicOp (exampleEnv 50 2 0 : MandelbrotEnv Unit ℝ ℝ) 0 0 i).nr = 0 ∧
        (sampleAt classicOp (exampleEnv 50 2 0 : MandelbrotEnv Unit ℝ ℝ) 0 0 i).ni = 0) ∧
      ((exampleEnv 50 2 0 : MandelbrotEnv Unit ℝ ℝ).calc Real.log id classicOp 0 0).type = 0 ∧
      ((exampleEnv 50 2 0 : MandelbrotEnv Unit ℝ ℝ).calc Real.log id classicOp 0 0).value = 0 ∧
      ((exampleEnv 50 2 0 : MandelbrotEnv Unit ℝ ℝ).calc Real.log id classicOp 0 0).n_ = 50) ∧
    (((exampleEnv 50 2 0 : MandelbrotEnv Unit ℝ ℝ).calc Real.log id identityOp 3 4).type = 0 ∧
      ((exampleEnv 50 2 0 : MandelbrotEnv Unit ℝ ℝ).calc Real.log id identityOp 3 4).value = 0 ∧
      ((exampleEnv 50 2 0 : MandelbrotEnv Unit ℝ ℝ).calc Real.log id identityOp 3 4).n_ = 50) :=
  have hz := samples_zero_of_preserved classicOp (exampleEnv 50 2 0 : MandelbrotEnv Unit ℝ ℝ)
    0 0 rfl (fun i s => classicOp_preserves_zero _ i s)
  have h := fixed_point_interior Real.log id classicOp
    (exampleEnv 50 2 0 : MandelbrotEnv Unit ℝ ℝ) 0 0 rfl (fun i _ => hz i)
  have hi := samples_zero_of_preserved identityOp (exampleEnv 50 2 0 : MandelbrotEnv Unit ℝ ℝ)
    3 4 rfl (fun i s => identityOp_preserves_zero _ 3 4 i s)
  have h2 := fixed_point_interior Real.log id identityOp
    (exampleEnv 50 2 0 : MandelbrotEnv Unit ℝ ℝ) 3 4 rfl (fun i _ => hi i)
  ⟨⟨fun i _ => hz i, h.1, by simpa using h.2.1,
      (h.2.2 (by simp [exampleEnv, MandelbrotEnv.new, Mandelbrot.new])).2⟩,
    ⟨h2.1, by simpa using h2.2.1,
      (h2.2.2 (by simp [exampleEnv, MandelbrotEnv.new, Mandelbrot.new])).2⟩⟩

end FieldClaims

/-! ## The classic formula at a far point -/

section FarPoint

variable {Tr T V : Type}
variable [IntCast T] [Add T] [Sub T] [Mul T] [Div T] [LT T] [∀ a b : T, Decidable (a < b)]
variable [IntCast V]

/-- C4, as the code has it. Classic formula `z → z² + c`, no warm-up formula, start value 0,
`maxIterations ≥ 1`, any arithmetic `T`: the first sample is `nr = 0·0 - 0·0 + cr`,
`ni = 2·0·0 + ci`, and whenever its squared magnitude `nr·nr + ni·ni`, computed in `T`, exceeds
`bailout·bailout`, computed in `T`, the point is classified escaped (`type = 1`) at the
smallest possible iteration count `n_ = 1`. -/
theorem classic_far_point_escapes (log : T → T) (toFloat : T → V)
    (env : MandelbrotEnv Tr T V) (cr ci : T)
    (hbase : env.spec_.base_ = []) (hcount : env.spec_.iteration_.opCount = 1)
    (hmax : 1 ≤ env.spec_.maxIterations_)
    (hfar :
      (((0 : Int) : T) * ((0 : Int) : T) - ((0 : Int) : T) * ((0 : Int) : T) + cr)
          * (((0 : Int) : T) * ((0 : Int) : T) - ((0 : Int) : T) * ((0 : Int) : T) + cr)
        + (((2 : Int) : T) * ((0 : Int) : T) * ((0 : Int) : T) + ci)
          * (((2 : Int) : T) * ((0 : Int) : T) * ((0 : Int) : T) + ci)
        > env.spec_.bailout_ * env.spec_.bailout_) :
    (env.calc log toFloat classicOp cr ci).type = 1 ∧
    (env.calc log toFloat classicOp cr ci).n_ = 1 := by
  have hb : bailsAt classicOp env cr ci 0 := by
    unfold bailsAt sampleAt loopStart
    rw [hbase, hcount]
    exact hfar
  have h := calc_of_first_bail log toFloat classicOp env cr ci 0 (by simp [hbase])
    (by simpa using hmax) (fun j _ hj => absurd hj (Nat.not_lt_zero j)) hb
  exact ⟨h.1, by simpa using h.2.2⟩

end FarPoint

/-- Classic formula, bailout 2, epsilon 0, 50 iterations, real arithmetic: at the point
(-2, -2) the first sample has squared magnitude 8 > 4 and the point is classified escaped with
`n_ = 1`. -/
theorem classic_far_point_escapes_witness :
    ((-2 : ℝ) * (-2) + (-2) * (-2) > 2 * 2) ∧
    ((exampleEnv 50 2 0 : MandelbrotEnv Unit ℝ ℝ).calc Real.log id classicOp (-2) (-2)).type = 1
    ∧ ((exampleEnv 50 2 0 : MandelbrotEnv Unit ℝ ℝ).calc Real.log id classicOp (-2) (-2)).n_ = 1
    :=
  ⟨by norm_num,
   classic_far_point_escapes Real.log id (exampleEnv 50 2 0) (-2) (-2) rfl rfl (by decide)
     (by norm_num [exampleEnv, MandelbrotEnv.new, Mandelbrot.new])⟩

set_option maxRecDepth 100000 in
/-- C4 as stated fails in the arithmetic of the program. Classic formula, bailout 2, epsilon 0,
50 iterations, binary64 arithmetic, point `c = (2, 2^-30)`: the squared magnitude of `c` is
`4 + 2^-60 > 4 = bailout²`, but the sum computed by `calc` rounds to 4, the bailout test of
iteration 0 fails, and the point is classified escaped at `n_ = 2`, not at `n_ = 1`. -/
theorem classic_rounding_counterexample :
    (Binary64.fin 1 1).toRat = 2 ∧ (Binary64.fin 1 (-30)).toRat = 1 / 2 ^ 30 ∧
    (Binary64.fin 1 1).toRat * (Binary64.fin 1 1).toRat
        + (Binary64.fin 1 (-30)).toRat * (Binary64.fin 1 (-30)).toRat
      > (Binary64.fin 1 1).toRat * (Binary64.fin 1 1).toRat ∧
    ¬ (Binary64.fin 1 1 * Binary64.fin 1 1 + Binary64.fin 1 (-30) * Binary64.fin 1 (-30)
      > Binary64.fin 1 1 * Binary64.fin 1 1) ∧
    ∀ log : Binary64 → Binary64,
      ((exampleEnv 50 (Binary64.fin 1 1) (Binary64.fin 0 0) :
          MandelbrotEnv Unit Binary64 Binary64).calc log id classicOp
        (Binary64.fin 1 1) (Binary64.fin 1 (-30))).type = 1 ∧
      ((exampleEnv 50 (Binary64.fin 1 1) (Binary64.fin 0 0) :
          MandelbrotEnv Unit Binary64 Binary64).calc log id classicOp
        (Binary64.fin 1 1) (Binary64.fin 1 (-30))).n_ = 2 :=
  ⟨by norm_num [Binary64.toRat], by norm_num [Binary64.toRat],
   by norm_num [Binary64.toRat], by decide, fun _ => ⟨rfl, rfl⟩⟩

/-! ## The three exits of `calc` -/

section LoopClaims


variable {Tr T V : Type}
variable [IntCast T] [Add T] [Sub T] [Mul T] [Div T] [LT T] [∀ a b : T, Decidable (a < b)]
variable [IntCast V]

/-- C1. Escape branch of `calc`: if iteration `i` (with `base.size ≤ i < maxIterations`) is the
first at which a stop test fires and the squared magnitude `radSqr` of its new sample exceeds
`bailout * bailout`, then `calc` returns `type = 1`,
`value = i + 1 + 1 / log 2 * log (log 256 / log radSqr)` and `n_ = i + 1`, whether or not the
epsilon test would hold at iteration `i` as well. -/
theorem calc_escape (log : T → T) (toFloat : T → V) (INTERPRET : OpMacro T)
    (env : MandelbrotEnv Tr T V) (x y : T) (i : Nat)
    (hlo : env.spec_.base_.length ≤ i) (hhi : (i : Int) < env.spec_.maxIterations_)
    (hfirst : ∀ j, env.spec_.base_.length ≤ j → j < i →
      ¬ bailsAt INTERPRET env x y j ∧ ¬ convergesAt INTERPRET env x y j)
    (hbail : bailsAt INTERPRET env x y i) :
    (env.calc log toFloat INTERPRET x y).type = 1 ∧
    (env.calc log toFloat INTERPRET x y).value =
      toFloat ((((i : Int) + 1 : Int) : T)
        + ((1 : Int) : T) / log ((2 : Int) : T)
          * log (log ((256 : Int) : T) / log (radSqr (sampleAt INTERPRET env x y i)))) ∧
    (env.calc log toFloat INTERPRET x y).n_ = (i : Int) + 1 := by
  obtain ⟨f, hf⟩ : ∃ f, (env.spec_.maxIterations_ - (i : Int)).toNat = f + 1 :=
    ⟨(env.spec_.maxIterations_ - (i : Int)).toNat - 1, by omega⟩
  rw [calc_reaches log toFloat INTERPRET env x y i hlo (le_of_lt hhi) hfirst, hf, loop]
  have hb : radSqr (sampleAt INTERPRET env x y i)
      > env.spec_.bailout_ * env.spec_.bailout_ := hbail
  unfold sampleAt at hb
  simp only [if_pos hb, sampleAt, and_self]

/-- C2. Convergence branch of `calc`: if no test fires before iteration `i`
(`base.size ≤ i < maxIterations`), the new sample of iteration `i` does not exceed the squared
bailout radius and its squared distance to the previous sample is below `epsilon * epsilon`,
then `calc` returns `type = 0`, `value = 0`, `n_ = i + 1`, and it has stored exactly the
samples `0 .. i`: no further iteration ran. -/
theorem calc_converged (log : T → T) (toFloat : T → V) (INTERPRET : OpMacro T)
    (env : MandelbrotEnv Tr T V) (x y : T) (i : Nat)
    (hlo : env.spec_.base_.length ≤ i) (hhi : (i : Int) < env.spec_.maxIterations_)
    (hfirst : ∀ j, env.spec_.base_.length ≤ j → j < i →
      ¬ bailsAt INTERPRET env x y j ∧ ¬ convergesAt INTERPRET env x y j)
    (hnobail : ¬ bailsAt INTERPRET env x y i)
    (hconv : convergesAt INTERPRET env x y i) :
    (env.calc log toFloat INTERPRET x y).type = 0 ∧
    (env.calc log toFloat INTERPRET x y).value = ((0 : Int) : V) ∧
    (env.calc log toFloat INTERPRET x y).n_ = (i : Int) + 1 ∧
    (env.calc log toFloat INTERPRET x y).writes = (List.range (i + 1)).map (fun k => (k, k)) := by
  obtain ⟨f, hf⟩ : ∃ f, (env.spec_.maxIterations_ - (i : Int)).toNat = f + 1 :=
    ⟨(env.spec_.maxIterations_ - (i : Int)).toNat - 1, by omega⟩
  rw [calc_reaches log toFloat INTERPRET env x y i hlo (le_of_lt hhi) hfirst, hf, loop]
  have hb : ¬ radSqr (sampleAt INTERPRET env x y i)
      > env.spec_.bailout_ * env.spec_.bailout_ := hnobail
  have hc : deltaSqr (sampleAt INTERPRET env x y i)
      < env.spec_.epsilon_ * env.spec_.epsilon_ := hconv
  obtain ⟨t0, x0⟩ := tracked_loopStart env x y
  obtain ⟨t1, x1⟩ := tracked_orbit INTERPRET env.spec_.iteration_.initOps
    env.spec_.iteration_.opCount x y (i - env.spec_.base_.length) env.spec_.base_.length _ t0
  obtain ⟨t2, x2⟩ := tracked_body INTERPRET env.spec_.iteration_.initOps
    env.spec_.iteration_.opCount x y i _ t1
  have hw := t2.2
  rw [x2, x1, x0, Nat.add_sub_cancel' hlo] at hw
  unfold sampleAt at hb hc
  simp only [if_neg hb, if_pos hc, true_and]
  exact hw

/-- C3. Exhaustion branch of `calc`: if no iteration `i` with `base.size ≤ i < maxIterations`
triggers the bailout test or the epsilon test (in particular if there is no such `i`), then
`calc` returns `type = 0`, `value = 0` and `n_ = maxIterations`. -/
theorem calc_exhausted (log : T → T) (toFloat : T → V) (INTERPRET : OpMacro T)
    (env : MandelbrotEnv Tr T V) (x y : T)
    (hnone : ∀ j, env.spec_.base_.length ≤ j → (j : Int) < env.spec_.maxIterations_ →
      ¬ bailsAt INTERPRET env x y j ∧ ¬ convergesAt INTERPRET env x y j) :
    (env.calc log toFloat INTERPRET x y).type = 0 ∧
    (env.calc log toFloat INTERPRET x y).value = ((0 : Int) : V) ∧
    (env.calc log toFloat INTERPRET x y).n_ = env.spec_.maxIterations_ := by
  by_cases h : (env.spec_.base_.length : Int) ≤ env.spec_.maxIterations_
  · have hlo : env.spec_.base_.length ≤ env.spec_.maxIterations_.toNat := by omega
    have hhi : ((env.spec_.maxIterations_.toNat : Nat) : Int) ≤ env.spec_.maxIterations_ := by
      omega
    have hz : (env.spec_.maxIterations_ - ((env.spec_.maxIterations_.toNat : Nat) : Int)).toNat
        = 0 := by omega
    rw [calc_reaches log toFloat INTERPRET env x y env.spec_.maxIterations_.toNat hlo hhi
      (fun j h1 h2 => hnone j h1 (by omega)), hz, loop]
    exact ⟨rfl, rfl, rfl⟩
  · have hz : (env.spec_.maxIterations_ - (env.spec_.base_.length : Int)).toNat = 0 := by omega
    unfold MandelbrotEnv.calc
    simp only [hz, loop, and_self]

end LoopClaims

/-- Classic formula at `c = (1, 0)` with bailout 2, epsilon 0: the samples are 1, 2, 5; the
first test to fire is the bailout test of iteration 2 (`25 > 4`), so `type = 1`, `n_ = 3` and
`value = 3 + 1 / log 2 * log (log 256 / log 25)`. -/
theorem calc_escape_witness :
    bailsAt classicOp (exampleEnv 50 2 0 : MandelbrotEnv Unit ℝ ℝ) 1 0 2 ∧
    ((exampleEnv 50 2 0 : MandelbrotEnv Unit ℝ ℝ).calc Real.log id classicOp 1 0).type = 1 ∧
    ((exampleEnv 50 2 0 : MandelbrotEnv Unit ℝ ℝ).calc Real.log id classicOp 1 0).value =
      3 + 1 / Real.log 2 * Real.log (Real.log 256 / Real.log 25) ∧
    ((exampleEnv 50 2 0 : MandelbrotEnv Unit ℝ ℝ).calc Real.log id classicOp 1 0).n_ = 3 := by
  have hb : bailsAt classicOp (exampleEnv 50 2 0 : MandelbrotEnv Unit ℝ ℝ) 1 0 2 := by
    norm_num [bailsAt, sampleAt, loopStart, orbit, advance, body, store, runOps, classicOp,
      radSqr, initState, warmup, exampleEnv, MandelbrotEnv.new, Mandelbrot.new, oneOp,
      List.range_succ]
  have h := calc_escape Real.log id classicOp (exampleEnv 50 2 0 : MandelbrotEnv Unit ℝ ℝ)
    1 0 2 (Nat.zero_le 2) (by decide)
    (by
      intro j _ hj
      interval_cases j <;>
        norm_num [bailsAt, convergesAt, sampleAt, loopStart, orbit, advance, body, store,
          runOps, classicOp, radSqr, deltaSqr, initState, warmup, exampleEnv,
          MandelbrotEnv.new, Mandelbrot.new, oneOp, List.range_succ])
    hb
  refine ⟨hb, h.1, ?_, h.2.2⟩
  rw [h.2.1]
  norm_num [sampleAt, loopStart, orbit, advance, body, store, runOps, classicOp,
      radSqr, initState, warmup, exampleEnv, MandelbrotEnv.new, Mandelbrot.new, oneOp,
      List.range_succ]

/-- Classic formula at `c = (1/2, 0)` with bailout 2, epsilon 1/2: the samples are 1/2, 3/4.
At iteration 0 the squared distance 1/4 is not below 1/4; at iteration 1 it is 1/16, so
`calc` returns converged with `n_ = 2` after storing samples 0 and 1. -/
theorem calc_converged_witness :
    convergesAt classicOp (exampleEnv 50 2 (1 / 2) : MandelbrotEnv Unit ℝ ℝ) (1 / 2) 0 1 ∧
    ((exampleEnv 50 2 (1 / 2) : MandelbrotEnv Unit ℝ ℝ).calc Real.log id classicOp
      (1 / 2) 0).type = 0 ∧
    ((exampleEnv 50 2 (1 / 2) : MandelbrotEnv Unit ℝ ℝ).calc Real.log id classicOp
      (1 / 2) 0).n_ = 2 ∧
    ((exampleEnv 50 2 (1 / 2) : MandelbrotEnv Unit ℝ ℝ).calc Real.log id classicOp
      (1 / 2) 0).writes = [(0, 0), (1, 1)] := by
  have hc : convergesAt classicOp (exampleEnv 50 2 (1 / 2) : MandelbrotEnv Unit ℝ ℝ)
      (1 / 2) 0 1 := by
    norm_num [convergesAt, sampleAt, loopStart, orbit, advance, body, store, runOps,
      classicOp, deltaSqr, initState, warmup, exampleEnv, MandelbrotEnv.new, Mandelbrot.new,
      oneOp, List.range_succ]
  have h := calc_converged Real.log id classicOp
    (exampleEnv 50 2 (1 / 2) : MandelbrotEnv Unit ℝ ℝ) (1 / 2) 0 1 (Nat.zero_le 1) (by decide)
    (by
      intro j _ hj
      interval_cases j
      norm_num [bailsAt, convergesAt, sampleAt, loopStart, orbit, advance, body, store,
          runOps, classicOp, radSqr, deltaSqr, initState, warmup, exampleEnv,
          MandelbrotEnv.new, Mandelbrot.new, oneOp, List.range_succ])
    (by
      norm_num [bailsAt, sampleAt, loopStart, orbit, advance, body, store,
          runOps, classicOp, radSqr, initState, warmup, exampleEnv,
          MandelbrotEnv.new, Mandelbrot.new, oneOp, List.range_succ])
    hc
  exact ⟨hc, h.1, h.2.2.1, h.2.2.2⟩

/-- Classic formula at `c = (-1, 0)` with bailout 2, epsilon 0 and 3 iterations: the samples
are -1, 0, -1; no test fires and `calc` returns interior with `n_ = 3`. -/
theorem calc_exhausted_witness :
    (∀ j : Nat, j < 3 →
      ¬ bailsAt classicOp (exampleEnv 3 2 0 : MandelbrotEnv Unit ℝ ℝ) (-1) 0 j ∧
      ¬ convergesAt classicOp (exampleEnv 3 2 0 : MandelbrotEnv Unit ℝ ℝ) (-1) 0 j) ∧
    ((exampleEnv 3 2 0 : MandelbrotEnv Unit ℝ ℝ).calc Real.log id classicOp (-1) 0).type = 0 ∧
    ((exampleEnv 3 2 0 : MandelbrotEnv Unit ℝ ℝ).calc Real.log id classicOp (-1) 0).value = 0 ∧
    ((exampleEnv 3 2 0 : MandelbrotEnv Unit ℝ ℝ).calc Real.log id classicOp (-1) 0).n_ = 3 := by
  have hn : ∀ j : Nat, j < 3 →
      ¬ bailsAt classicOp (exampleEnv 3 2 0 : MandelbrotEnv Unit ℝ ℝ) (-1) 0 j ∧
      ¬ convergesAt classicOp (exampleEnv 3 2 0 : MandelbrotEnv Unit ℝ ℝ) (-1) 0 j := by
    intro j hj
    interval_cases j <;>
      norm_num [bailsAt, convergesAt, sampleAt, loopStart, orbit, advance, body, store,
          runOps, classicOp, radSqr, deltaSqr, initState, warmup, exampleEnv,
          MandelbrotEnv.new, Mandelbrot.new, oneOp, List.range_succ]
  have h := calc_exhausted Real.log id classicOp (exampleEnv 3 2 0 : MandelbrotEnv Unit ℝ ℝ)
    (-1) 0 (fun j _ hj => hn j (by
      have : (j : Int) < 3 := hj
      omega))
  exact ⟨hn, h.1, by simpa using h.2.1, h.2.2⟩

/-! ## The colour provider -/

section ColorClaims

variable {Tr T V : Type} [IntCast V] [OfScientific V] [LT V] [∀ a b : V, Decidable (a < b)]
  [Div V]

/-- C6. `color` on a pixel that is not escaped (`type ≠ 1`): the result is `r = g = b = 0`,
`a = 1`, whatever the value and the bailout palette. -/
theorem color_interior (log : V → V) (spec : Mandelbrot Tr T V) (type : Nat) (val : V)
    (h : type ≠ 1) :
    spec.color log type val =
      { r := ((0 : Int) : V), g := ((0 : Int) : V), b := ((0 : Int) : V),
        a := ((1 : Int) : V) } := by
  unfold Mandelbrot.color
  rw [if_neg h]

/-- C7, as the code has it. `color` on an escaped pixel (`type = 1`) with value `v`: the
palette is looked up at `v / log v` whenever `v > 2.7183`, and at `v` unchanged whenever
`v > 2.7183` does not hold; the result is exactly the palette's colour there. -/
theorem color_escaped_threshold (log : V → V) (spec : Mandelbrot Tr T V) (v : V) :
    (v > 2.7183 → spec.color log 1 v = spec.bailoutPalette_.color (v / log v)) ∧
    (¬ v > 2.7183 → spec.color log 1 v = spec.bailoutPalette_.color v) := by
  unfold Mandelbrot.color
  constructor
  · intro h
    simp only [if_true, if_pos h]
  · intro h
    simp only [if_true, if_neg h]

end ColorClaims

/-- An interior pixel (`type = 0`) with value 7 is opaque black under the grey palette. -/
theorem color_interior_witness :
    (0 : Nat) ≠ 1 ∧
    (Mandelbrot.new () [] oneOp 50 2 0 greyPalette : Mandelbrot Unit ℝ ℝ).color Real.log 0 7 =
      { r := 0, g := 0, b := 0, a := 1 } :=
  ⟨by decide, by
    simpa using color_interior Real.log
      (Mandelbrot.new () [] oneOp 50 2 0 greyPalette : Mandelbrot Unit ℝ ℝ) 0 7 (by decide)⟩

/-- An escaped pixel with value 3 (above the threshold) is looked up at `3 / log 3`, one with
value 2 (below it) at 2. -/
theorem color_escaped_threshold_witness :
    ((3 : ℝ) > 2.7183) ∧ ¬ ((2 : ℝ) > 2.7183) ∧
    (Mandelbrot.new () [] oneOp 50 2 0 greyPalette : Mandelbrot Unit ℝ ℝ).color Real.log 1 3 =
      greyPalette.color (3 / Real.log 3) ∧
    (Mandelbrot.new () [] oneOp 50 2 0 greyPalette : Mandelbrot Unit ℝ ℝ).color Real.log 1 2 =
      greyPalette.color 2 :=
  ⟨by norm_num, by norm_num,
   (color_escaped_threshold Real.log
      (Mandelbrot.new () [] oneOp 50 2 0 greyPalette : Mandelbrot Unit ℝ ℝ) 3).1 (by norm_num),
   (color_escaped_threshold Real.log
      (Mandelbrot.new () [] oneOp 50 2 0 greyPalette : Mandelbrot Unit ℝ ℝ) 2).2 (by norm_num)⟩

/-- C7 as stated fails. The value `v = 2.71829` is greater than Euler's number, yet `color`
looks the palette up at `v` itself and not at `v / ln v`, which is a different argument and,
under the grey palette, a different colour. -/
theorem color_euler_counterexample :
    Real.exp 1 < (2.71829 : ℝ) ∧
    (Mandelbrot.new () [] oneOp 50 2 0 greyPalette : Mandelbrot Unit ℝ ℝ).color Real.log 1
      2.71829 = greyPalette.color 2.71829 ∧
    (Mandelbrot.new () [] oneOp 50 2 0 greyPalette : Mandelbrot Unit ℝ ℝ).color Real.log 1
      2.71829 ≠ greyPalette.color (2.71829 / Real.log 2.71829) := by
  have he : Real.exp 1 < (2.71829 : ℝ) := lt_trans Real.exp_one_lt_d9 (by norm_num)
  have hc : (Mandelbrot.new () [] oneOp 50 2 0 greyPalette : Mandelbrot Unit ℝ ℝ).color
      Real.log 1 2.71829 = greyPalette.color 2.71829 := by
    unfold Mandelbrot.color
    norm_num [Mandelbrot.new]
  refine ⟨he, hc, ?_⟩
  rw [hc]
  intro h
  have hr : (2.71829 : ℝ) = 2.71829 / Real.log 2.71829 := congrArg RGBA.r h
  have hl : 1 < Real.log 2.71829 := (Real.lt_log_iff_exp_lt (by norm_num)).mpr he
  have hpos : (0 : ℝ) < 2.71829 := by norm_num
  have : (2.71829 : ℝ) / Real.log 2.71829 < 2.71829 := div_lt_self hpos hl
  linarith

/-! ## Non-finite samples -/

section NonFinite

open IEEE

/-- A sum of squares with an infinite term and no NaN term is `+∞`. -/
theorem IEEE.sq_add_sq_of_inf (a b : IEEE) (hinf : a.isInf = true ∨ b.isInf = true)
    (ha : a ≠ nan) (hb : b ≠ nan) : a * a + b * b = pinf := by
  show IEEE.add (IEEE.mul a a) (IEEE.mul b b) = pinf
  cases a <;> cases b <;>
    simp_all [IEEE.add, IEEE.mul, IEEE.isInf, IEEE.signed, IEEE.sgn]

/-- A sum of squares with a NaN term is NaN. -/
theorem IEEE.sq_add_sq_of_nan (a b : IEEE) (h : a = nan ∨ b = nan) : a * a + b * b = nan := by
  show IEEE.add (IEEE.mul a a) (IEEE.mul b b) = nan
  rcases h with h | h
  · subst h; cases b <;> simp [IEEE.add, IEEE.mul, IEEE.signed, IEEE.sgn]
  · subst h; cases a <;> simp [IEEE.add, IEEE.mul, IEEE.signed, IEEE.sgn]

/-- A difference with a NaN subtrahend is NaN. -/
theorem IEEE.sub_nan (a : IEEE) : a - nan = nan := by
  show IEEE.add a (IEEE.neg nan) = nan
  cases a <;> rfl

/-- No value is greater than NaN, and NaN is not less than any value. -/
theorem IEEE.not_lt_nan (a : IEEE) : ¬ a < nan ∧ ¬ nan < a := by
  constructor
  · show ¬ IEEE.blt a nan = true
    cases a <;> simp [IEEE.blt]
  · show ¬ IEEE.blt nan a = true
    cases a <;> simp [IEEE.blt]

/-- Positive infinity is greater than every finite value. -/
theorem IEEE.fin_lt_pinf (q : ℚ) : fin q < pinf := by
  show IEEE.blt (fin q) pinf = true
  rfl

variable {Tr V : Type} [IntCast V]

/-- C8, as the code has it. `calc` has no test of its own for non-finite values; a non-finite
sample acts only through the two comparisons.  Let iteration `i` be reached without an earlier
stop.  If a component of its new sample is infinite and none is NaN, and `bailout * bailout`
is finite, then `calc` stops there with `type = 1` and `n_ = i + 1`.  If a component is NaN,
neither test fires at iteration `i`, and `calc` does not stop there: it returns interior with
`n_ = maxIterations` or stops at a later iteration. -/
theorem calc_nonfinite (log : IEEE → IEEE) (toFloat : IEEE → V) (INTERPRET : OpMacro IEEE)
    (env : MandelbrotEnv Tr IEEE V) (x y : IEEE) (i : Nat)
    (hlo : env.spec_.base_.length ≤ i) (hhi : (i : Int) < env.spec_.maxIterations_)
    (hfirst : ∀ j, env.spec_.base_.length ≤ j → j < i →
      ¬ bailsAt INTERPRET env x y j ∧ ¬ convergesAt INTERPRET env x y j) :
    (((sampleAt INTERPRET env x y i).nr.isInf = true ∨
        (sampleAt INTERPRET env x y i).ni.isInf = true) →
      (sampleAt INTERPRET env x y i).nr ≠ nan → (sampleAt INTERPRET env x y i).ni ≠ nan →
      (∃ q, env.spec_.bailout_ * env.spec_.bailout_ = fin q) →
      (env.calc log toFloat INTERPRET x y).type = 1 ∧
      (env.calc log toFloat INTERPRET x y).n_ = (i : Int) + 1) ∧
    (((sampleAt INTERPRET env x y i).nr = nan ∨ (sampleAt INTERPRET env x y i).ni = nan) →
      ¬ bailsAt INTERPRET env x y i ∧ ¬ convergesAt INTERPRET env x y i ∧
      (((env.calc log toFloat INTERPRET x y).type = 0 ∧
          (env.calc log toFloat INTERPRET x y).n_ = env.spec_.maxIterations_) ∨
        (i : Int) + 1 < (env.calc log toFloat INTERPRET x y).n_)) := by
  constructor
  · intro hinf hnr hni hq
    obtain ⟨q, hq⟩ := hq
    have hb : bailsAt INTERPRET env x y i := by
      unfold bailsAt radSqr
      rw [IEEE.sq_add_sq_of_inf _ _ hinf hnr hni, hq]
      exact IEEE.fin_lt_pinf q
    have h := calc_of_first_bail log toFloat INTERPRET env x y i hlo hhi hfirst hb
    exact ⟨h.1, h.2.2⟩
  · intro hnan
    have hb : ¬ bailsAt INTERPRET env x y i := by
      unfold bailsAt radSqr
      rw [IEEE.sq_add_sq_of_nan _ _ hnan]
      exact (IEEE.not_lt_nan _).1
    have hc : ¬ convergesAt INTERPRET env x y i := by
      unfold convergesAt deltaSqr
      have hd : (sampleAt INTERPRET env x y i).zr - (sampleAt INTERPRET env x y i).nr = nan ∨
          (sampleAt INTERPRET env x y i).zi - (sampleAt INTERPRET env x y i).ni = nan := by
        rcases hnan with h | h
        · left; rw [h]; exact IEEE.sub_nan _
        · right; rw [h]; exact IEEE.sub_nan _
      simp only
      rw [IEEE.sq_add_sq_of_nan _ _ hd]
      exact (IEEE.not_lt_nan _).2
    refine ⟨hb, hc, ?_⟩
    have hr := calc_reaches log toFloat INTERPRET env x y (i + 1) (by omega)
      (by push_cast; omega)
      (by
        intro j hj1 hj2
        rcases Nat.lt_succ_iff_lt_or_eq.mp hj2 with h | h
        · exact hfirst j hj1 h
        · rw [h]; exact ⟨hb, hc⟩)
    rw [hr]
    have hn := loop_n log toFloat INTERPRET env.spec_.iteration_.initOps
      env.spec_.iteration_.opCount x y (env.spec_.bailout_ * env.spec_.bailout_)
      (env.spec_.epsilon_ * env.spec_.epsilon_) env.spec_.maxIterations_
      (env.spec_.maxIterations_ - ((i + 1 : Nat) : Int)).toNat (i + 1)
      (orbit INTERPRET env.spec_.iteration_.initOps env.spec_.iteration_.opCount x y
        (i + 1 - env.spec_.base_.length) env.spec_.base_.length (loopStart env x y))
    rcases hn with h | h
    · left; exact h
    · right
      have e : ((i + 1 : Nat) : Int) = (i : Int) + 1 := by push_cast; rfl
      rw [e] at h
      exact h

/-- Classic formula, bailout 2, epsilon 0, 50 iterations.  At the point `(+∞, 0)` the first
sample is infinite and `calc` returns escaped with `n_ = 1`; at the point `(NaN, 0)` the first
sample is NaN and no test fires at iteration 0. -/
theorem calc_nonfinite_witness :
    (((exampleEnv 50 (fin 2) (fin 0) : MandelbrotEnv Unit IEEE IEEE).calc id id classicOp
        pinf (fin 0)).type = 1 ∧
      ((exampleEnv 50 (fin 2) (fin 0) : MandelbrotEnv Unit IEEE IEEE).calc id id classicOp
        pinf (fin 0)).n_ = 1) ∧
    (¬ bailsAt classicOp (exampleEnv 50 (fin 2) (fin 0) : MandelbrotEnv Unit IEEE IEEE)
        nan (fin 0) 0 ∧
      ¬ convergesAt classicOp (exampleEnv 50 (fin 2) (fin 0) : MandelbrotEnv Unit IEEE IEEE)
        nan (fin 0) 0) :=
  ⟨(calc_nonfinite id id classicOp
      (exampleEnv 50 (fin 2) (fin 0) : MandelbrotEnv Unit IEEE IEEE) pinf (fin 0) 0
      (Nat.zero_le 0) (by decide) (fun j _ hj => absurd hj (Nat.not_lt_zero j))).1
      (by decide) (by decide) (by decide) ⟨2 * 2, rfl⟩,
   have h := (calc_nonfinite id id classicOp
      (exampleEnv 50 (fin 2) (fin 0) : MandelbrotEnv Unit IEEE IEEE) nan (fin 0) 0
      (Nat.zero_le 0) (by decide) (fun j _ hj => absurd hj (Nat.not_lt_zero j))).2
      (by decide)
   ⟨h.1, h.2.1⟩⟩

/-- C8 as stated fails. Classic formula, bailout 2, epsilon 0, 50 iterations, point
`(NaN, 0)`: the new sample of iteration 0 has a NaN real part, yet `calc` does not stop there
as escaped; it runs all 50 iterations and returns interior (`type = 0`, `n_ = 50`), whatever
the logarithm. -/
theorem calc_nan_counterexample :
    (sampleAt classicOp (exampleEnv 50 (fin 2) (fin 0) : MandelbrotEnv Unit IEEE IEEE)
      nan (fin 0) 0).nr = nan ∧
    ∀ log : IEEE → IEEE,
      ((exampleEnv 50 (fin 2) (fin 0) : MandelbrotEnv Unit IEEE IEEE).calc log id classicOp
        nan (fin 0)).type = 0 ∧
      ((exampleEnv 50 (fin 2) (fin 0) : MandelbrotEnv Unit IEEE IEEE).calc log id classicOp
        nan (fin 0)).n_ = 50 :=
  ⟨by decide, fun _ => ⟨rfl, rfl⟩⟩

end NonFinite

/-! ## Construction and the history arrays -/

section HistoryArrays

variable {Tr T V : Type}
variable [IntCast T] [Add T] [Sub T] [Mul T] [Div T] [LT T] [∀ a b : T, Decidable (a < b)]
variable [IntCast V]

/-- A store puts the new sample at the offsets of the two write pointers and changes no other
entry. -/
theorem store_arrays (s : CalcState T) :
    (store s).xs s.xn = s.nr ∧ (store s).ys s.yn = s.ni ∧
    (∀ idx, idx ≠ s.xn → (store s).xs idx = s.xs idx) ∧
    (∀ idx, idx ≠ s.yn → (store s).ys idx = s.ys idx) := by
  refine ⟨?_, ?_, ?_, ?_⟩
  · simp [store]
  · simp [store]
  · intro idx h; simp [store, Function.update_noteq h]
  · intro idx h; simp [store, Function.update_noteq h]

/-- The warm-up loop stores the sample of step `j` at offset `j` from where the write pointers
stood, and leaves every entry outside that range as it was. -/
theorem warmup_arrays (cr ci : T) (l : List (Interpreter T)) :
    ∀ (i : Nat) (s : CalcState T), s.yn = s.xn →
      (∀ idx, idx < s.xn ∨ s.xn + l.length ≤ idx →
        (warmup cr ci l i s).xs idx = s.xs idx ∧ (warmup cr ci l i s).ys idx = s.ys idx) ∧
      (∀ j, j < l.length →
        (warmup cr ci l i s).xs (s.xn + j) = (warmup cr ci (l.take (j + 1)) i s).nr ∧
        (warmup cr ci l i s).ys (s.xn + j) = (warmup cr ci (l.take (j + 1)) i s).ni) := by
  induction l with
  | nil =>
    intro i s _
    exact ⟨fun idx _ => ⟨rfl, rfl⟩, fun j hj => absurd hj (Nat.not_lt_zero j)⟩
  | cons b rest ih =>
    intro i s h
    have hx : (warmStep cr ci b i s).xn = s.xn + 1 := rfl
    have hy : (warmStep cr ci b i s).yn = (warmStep cr ci b i s).xn := by
      show s.yn + 1 = s.xn + 1
      rw [h]
    obtain ⟨ih1, ih2⟩ := ih (i + 1) (warmStep cr ci b i s) hy
    have hst := store_arrays
      { s with nr := (b.interpret s.nr s.ni cr ci s.zr s.zi (i : Int) s.xs s.ys).1,
               ni := (b.interpret s.nr s.ni cr ci s.zr s.zi (i : Int) s.xs s.ys).2 }
    constructor
    · intro idx hidx
      have hne : idx ≠ s.xn := by
        rcases hidx with h1 | h1
        · omega
        · simp only [List.length_cons] at h1; omega
      have h1 := ih1 idx (by
        rcases hidx with h1 | h1
        · left; rw [hx]; omega
        · right; rw [hx]; simp only [List.length_cons] at h1; omega)
      have h2 : (warmStep cr ci b i s).xs idx = s.xs idx := hst.2.2.1 idx hne
      have h3 : (warmStep cr ci b i s).ys idx = s.ys idx := hst.2.2.2 idx (by
        show idx ≠ s.yn
        rw [h]; exact hne)
      simp only [warmup]
      exact ⟨h1.1.trans h2, h1.2.trans h3⟩
    · intro j hj
      cases j with
      | zero =>
        have h1 := ih1 s.xn (Or.inl (by rw [hx]; omega))
        have h2 : (warmStep cr ci b i s).xs s.xn = (warmStep cr ci b i s).nr := hst.1
        have h3 : (warmStep cr ci b i s).ys s.xn = (warmStep cr ci b i s).ni := by
          have := hst.2.1
          rw [← h]
          exact this
        simp only [warmup, Nat.add_zero, List.take_succ_cons, List.take_zero]
        exact ⟨h1.1.trans h2, h1.2.trans h3⟩
      | succ j =>
        have h1 := ih2 j (by simp only [List.length_cons] at hj; omega)
        rw [hx] at h1
        have e : s.xn + (j + 1) = s.xn + 1 + j := by omega
        simp only [warmup, List.take_succ_cons, e]
        exact h1

/-- After `k` passes of the main loop without a stop, iteration `i + j` has put its sample at
offset `j` from where the write pointers stood, and every entry outside that range is as it
was. -/
theorem orbit_arrays (INTERPRET : OpMacro T) (ops : Nat → Nat) (count : Int) (cr ci : T) :
    ∀ (k i : Nat) (s : CalcState T), Tracked s →
      (∀ idx, idx < s.xn ∨ s.xn + k ≤ idx →
        (orbit INTERPRET ops count cr ci k i s).xs idx = s.xs idx ∧
        (orbit INTERPRET ops count cr ci k i s).ys idx = s.ys idx) ∧
      (∀ j, j < k →
        (orbit INTERPRET ops count cr ci k i s).xs (s.xn + j) =
          (body INTERPRET ops count cr ci (i + j) (orbit INTERPRET ops count cr ci j i s)).nr ∧
        (orbit INTERPRET ops count cr ci k i s).ys (s.xn + j) =
          (body INTERPRET ops count cr ci (i + j) (orbit INTERPRET ops count cr ci j i s)).ni)
    := by
  intro k
  induction k with
  | zero =>
    intro i s _
    exact ⟨fun idx _ => ⟨rfl, rfl⟩, fun j hj => absurd hj (Nat.not_lt_zero j)⟩
  | succ k ih =>
    intro i s h
    obtain ⟨ih1, ih2⟩ := ih i s h
    obtain ⟨t1, x1⟩ := tracked_orbit INTERPRET ops count cr ci k i s h
    have hst := store_arrays
      (runOps INTERPRET ops count cr ci (i + k) (orbit INTERPRET ops count cr ci k i s))
    have hxn : (runOps INTERPRET ops count cr ci (i + k)
        (orbit INTERPRET ops count cr ci k i s)).xn = s.xn + k := x1
    have hyn : (runOps INTERPRET ops count cr ci (i + k)
        (orbit INTERPRET ops count cr ci k i s)).yn = s.xn + k := by
      show (orbit INTERPRET ops count cr ci k i s).yn = s.xn + k
      rw [t1.1, x1]
    rw [hxn, hyn] at hst
    have hxs : ∀ idx, (orbit INTERPRET ops count cr ci (k + 1) i s).xs idx =
        (store (runOps INTERPRET ops count cr ci (i + k)
          (orbit INTERPRET ops count cr ci k i s))).xs idx := by
      intro idx; rw [orbit_succ]; rfl
    have hys : ∀ idx, (orbit INTERPRET ops count cr ci (k + 1) i s).ys idx =
        (store (runOps INTERPRET ops count cr ci (i + k)
          (orbit INTERPRET ops count cr ci k i s))).ys idx := by
      intro idx; rw [orbit_succ]; rfl
    constructor
    · intro idx hidx
      have hne : idx ≠ s.xn + k := by omega
      rw [hxs, hys, hst.2.2.1 idx hne, hst.2.2.2 idx hne]
      exact ih1 idx (by omega)
    · intro j hj
      rw [hxs, hys]
      rcases Nat.lt_succ_iff_lt_or_eq.mp hj with hlt | heq
      · have hne : s.xn + j ≠ s.xn + k := by omega
        rw [hst.2.2.1 _ hne, hst.2.2.2 _ hne]
        exact ih2 j hlt
      · rw [heq]
        exact ⟨hst.1, hst.2.1⟩

/-- The arrays and the record of stores that the main loop leaves behind are those of the orbit
after the passes it ran, the stopping pass included. -/
theorem loop_arrays (log : T → T) (toFloat : T → V) (INTERPRET : OpMacro T) (ops : Nat → Nat)
    (count : Int) (cr ci bailoutSqr epsSqr : T) (maxIter : Int) :
    ∀ (fuel i : Nat) (s : CalcState T),
      ∃ m, m ≤ fuel ∧
        (loop log toFloat INTERPRET ops count cr ci bailoutSqr epsSqr maxIter fuel i s).xs_
          = (orbit INTERPRET ops count cr ci m i s).xs ∧
        (loop log toFloat INTERPRET ops count cr ci bailoutSqr epsSqr maxIter fuel i s).ys_
          = (orbit INTERPRET ops count cr ci m i s).ys ∧
        (loop log toFloat INTERPRET ops count cr ci bailoutSqr epsSqr maxIter fuel i s).writes
          = (orbit INTERPRET ops count cr ci m i s).writes := by
  intro fuel
  induction fuel with
  | zero => intro i s; exact ⟨0, le_refl 0, rfl, rfl, rfl⟩
  | succ fuel ih =>
    intro i s
    rw [loop]
    split_ifs with hb hc
    · exact ⟨1, by omega, rfl, rfl, rfl⟩
    · exact ⟨1, by omega, rfl, rfl, rfl⟩
    · obtain ⟨m, hm, h1, h2, h3⟩ := ih (i + 1) (advance INTERPRET ops count cr ci i s)
      exact ⟨m + 1, by omega, h1, h2, h3⟩

/-- The store of iteration `i`, once reached, puts the new sample at index `i` of both arrays
and is the `(i + 1)`-th store. -/
theorem sampleAt_store (INTERPRET : OpMacro T) (env : MandelbrotEnv Tr T V) (x y : T) (i : Nat)
    (hlo : env.spec_.base_.length ≤ i) :
    (sampleAt INTERPRET env x y i).xs i = (sampleAt INTERPRET env x y i).nr ∧
    (sampleAt INTERPRET env x y i).ys i = (sampleAt INTERPRET env x y i).ni ∧
    (sampleAt INTERPRET env x y i).writes = (List.range (i + 1)).map (fun k => (k, k)) := by
  obtain ⟨t0, x0⟩ := tracked_loopStart env x y
  obtain ⟨t1, x1⟩ := tracked_orbit INTERPRET env.spec_.iteration_.initOps
    env.spec_.iteration_.opCount x y (i - env.spec_.base_.length) env.spec_.base_.length _ t0
  obtain ⟨t2, x2⟩ := tracked_body INTERPRET env.spec_.iteration_.initOps
    env.spec_.iteration_.opCount x y i _ t1
  have hx : (orbit INTERPRET env.spec_.iteration_.initOps env.spec_.iteration_.opCount x y
      (i - env.spec_.base_.length) env.spec_.base_.length (loopStart env x y)).xn = i := by
    rw [x1, x0]; omega
  have hst := store_arrays (runOps INTERPRET env.spec_.iteration_.initOps
    env.spec_.iteration_.opCount x y i
    (orbit INTERPRET env.spec_.iteration_.initOps env.spec_.iteration_.opCount x y
      (i - env.spec_.base_.length) env.spec_.base_.length (loopStart env x y)))
  have hxn : (runOps INTERPRET env.spec_.iteration_.initOps env.spec_.iteration_.opCount x y i
      (orbit INTERPRET env.spec_.iteration_.initOps env.spec_.iteration_.opCount x y
        (i - env.spec_.base_.length) env.spec_.base_.length (loopStart env x y))).xn = i := hx
  have hyn : (runOps INTERPRET env.spec_.iteration_.initOps env.spec_.iteration_.opCount x y i
      (orbit INTERPRET env.spec_.iteration_.initOps env.spec_.iteration_.opCount x y
        (i - env.spec_.base_.length) env.spec_.base_.length (loopStart env x y))).yn = i := by
    show (orbit INTERPRET env.spec_.iteration_.initOps env.spec_.iteration_.opCount x y
      (i - env.spec_.base_.length) env.spec_.base_.length (loopStart env x y)).yn = i
    rw [t1.1, hx]
  rw [hxn, hyn] at hst
  have hw := t2.2
  rw [x2, hx] at hw
  exact ⟨hst.1, hst.2.1, hw⟩

end HistoryArrays

section HistoryClaim

variable {Tr T V : Type}
variable [IntCast T] [Add T] [Sub T] [Mul T] [Div T] [LT T] [∀ a b : T, Decidable (a < b)]
variable [IntCast V]

/-- C10. `calc` stores the sample of step `k` at index `k` of `xs_` and `ys_` and checks no
capacity.  (1) The stores of a call go to the indices `0 .. m - 1`, in this order, for some `m`
between `base.size` and the larger of `base.size` and `maxIterations`; with `base.size ≤ 10240`
and `maxIterations ≤ 10240` every such index is below 10240, and afterwards entry `k` holds the
sample of warm-up step `k` for `k < base.size`, the sample of iteration `k` for
`base.size ≤ k < m`, and its old content for `m ≤ k < 10240`.  (2) For every
`base.size ≤ i ≤ 10240` the store of iteration `i`, once reached, puts the sample at index `i`,
index 10240 included.  (3) For every `maxIterations > 10240` the classic formula at `c = 0`
with bailout 2 and epsilon 0 stops at no iteration up to 10240, so that `calc` reaches
iteration 10240 and stores its sample at index 10240, past the end of the arrays. -/
theorem history_write_indices (log : T → T) (toFloat : T → V) (INTERPRET : OpMacro T)
    (env : MandelbrotEnv Tr T V) (x y : T) :
    (∃ m : Nat, env.spec_.base_.length ≤ m ∧
      (m : Int) ≤ max (env.spec_.base_.length : Int) env.spec_.maxIterations_ ∧
      (env.calc log toFloat INTERPRET x y).writes = (List.range m).map (fun k => (k, k)) ∧
      (env.spec_.base_.length ≤ historyCapacity →
        env.spec_.maxIterations_ ≤ (historyCapacity : Int) →
        (∀ w ∈ (env.calc log toFloat INTERPRET x y).writes,
          w.1 < historyCapacity ∧ w.2 < historyCapacity) ∧
        (∀ k, k < env.spec_.base_.length →
          (env.calc log toFloat INTERPRET x y).xs_ k = (warmSampleAt env x y k).nr ∧
          (env.calc log toFloat INTERPRET x y).ys_ k = (warmSampleAt env x y k).ni) ∧
        (∀ k, env.spec_.base_.length ≤ k → k < m →
          (env.calc log toFloat INTERPRET x y).xs_ k = (sampleAt INTERPRET env x y k).nr ∧
          (env.calc log toFloat INTERPRET x y).ys_ k = (sampleAt INTERPRET env x y k).ni) ∧
        (∀ k, m ≤ k → k < historyCapacity →
          (env.calc log toFloat INTERPRET x y).xs_ k = env.xs_ k ∧
          (env.calc log toFloat INTERPRET x y).ys_ k = env.ys_ k))) ∧
    (∀ i, env.spec_.base_.length ≤ i → i ≤ historyCapacity →
      (sampleAt INTERPRET env x y i).xs i = (sampleAt INTERPRET env x y i).nr ∧
      (sampleAt INTERPRET env x y i).ys i = (sampleAt INTERPRET env x y i).ni ∧
      (sampleAt INTERPRET env x y i).writes = (List.range (i + 1)).map (fun k => (k, k))) ∧
    (∀ maxIterations : Int, (historyCapacity : Int) < maxIterations →
      (∀ j : Nat, j ≤ historyCapacity →
        ¬ bailsAt classicOp (exampleEnv maxIterations 2 0 : MandelbrotEnv Unit ℝ ℝ) 0 0 j ∧
        ¬ convergesAt classicOp (exampleEnv maxIterations 2 0 : MandelbrotEnv Unit ℝ ℝ) 0 0 j) ∧
      (sampleAt classicOp (exampleEnv maxIterations 2 0 : MandelbrotEnv Unit ℝ ℝ) 0 0
          historyCapacity).xs historyCapacity =
        (sampleAt classicOp (exampleEnv maxIterations 2 0 : MandelbrotEnv Unit ℝ ℝ) 0 0
          historyCapacity).nr ∧
      (historyCapacity, historyCapacity) ∈
        (sampleAt classicOp (exampleEnv maxIterations 2 0 : MandelbrotEnv Unit ℝ ℝ) 0 0
          historyCapacity).writes ∧
      (historyCapacity, historyCapacity) ∈
        ((exampleEnv maxIterations 2 0 : MandelbrotEnv Unit ℝ ℝ).calc Real.log id classicOp
          0 0).writes) := by
  refine ⟨?_, ?_, ?_⟩
  · obtain ⟨t0, x0⟩ := tracked_loopStart env x y
    obtain ⟨m0, hm0, hxs, hys, hws⟩ := loop_arrays log toFloat INTERPRET
      env.spec_.iteration_.initOps env.spec_.iteration_.opCount x y
      (env.spec_.bailout_ * env.spec_.bailout_) (env.spec_.epsilon_ * env.spec_.epsilon_)
      env.spec_.maxIterations_
      (env.spec_.maxIterations_ - (env.spec_.base_.length : Int)).toNat
      env.spec_.base_.length (loopStart env x y)
    obtain ⟨t1, x1⟩ := tracked_orbit INTERPRET env.spec_.iteration_.initOps
      env.spec_.iteration_.opCount x y m0 env.spec_.base_.length _ t0
    obtain ⟨o1, o2⟩ := orbit_arrays INTERPRET env.spec_.iteration_.initOps
      env.spec_.iteration_.opCount x y m0 env.spec_.base_.length _ t0
    obtain ⟨w1, w2⟩ := warmup_arrays x y env.spec_.base_ 0 (initState env) rfl
    rw [x0] at x1 o1 o2
    have hxs' : (env.calc log toFloat INTERPRET x y).xs_ =
        (orbit INTERPRET env.spec_.iteration_.initOps env.spec_.iteration_.opCount x y m0
          env.spec_.base_.length (loopStart env x y)).xs := hxs
    have hys' : (env.calc log toFloat INTERPRET x y).ys_ =
        (orbit INTERPRET env.spec_.iteration_.initOps env.spec_.iteration_.opCount x y m0
          env.spec_.base_.length (loopStart env x y)).ys := hys
    have hws' : (env.calc log toFloat INTERPRET x y).writes =
        (List.range (env.spec_.base_.length + m0)).map (fun k => (k, k)) := by
      have h := t1.2
      rw [x1] at h
      exact hws.trans h
    have hmax : ((env.spec_.base_.length + m0 : Nat) : Int) ≤
        max (env.spec_.base_.length : Int) env.spec_.maxIterations_ := by
      rcases le_total (env.spec_.base_.length : Int) env.spec_.maxIterations_ with h | h
      · rw [max_eq_right h]; omega
      · rw [max_eq_left h]; omega
    refine ⟨env.spec_.base_.length + m0, Nat.le_add_right _ _, hmax, hws', ?_⟩
    intro hb hm
    refine ⟨?_, ?_, ?_, ?_⟩
    · intro w hw
      rw [hws', List.mem_map] at hw
      obtain ⟨k, hk, rfl⟩ := hw
      rw [List.mem_range] at hk
      have hcap : ((env.spec_.base_.length + m0 : Nat) : Int) ≤ (historyCapacity : Int) :=
        le_trans hmax (max_le (by exact_mod_cast hb) hm)
      have : env.spec_.base_.length + m0 ≤ historyCapacity := by exact_mod_cast hcap
      exact ⟨by omega, by omega⟩
    · intro k hk
      have h1 := o1 k (Or.inl hk)
      have h2 := w2 k hk
      have e : (initState env).xn + k = k := Nat.zero_add k
      rw [e] at h2
      rw [hxs', hys']
      exact ⟨h1.1.trans h2.1, h1.2.trans h2.2⟩
    · intro k hk1 hk2
      have h1 := o2 (k - env.spec_.base_.length) (by omega)
      have e : env.spec_.base_.length + (k - env.spec_.base_.length) = k := by omega
      rw [e] at h1
      rw [hxs', hys']
      exact h1
    · intro k hk _
      have h1 := o1 k (Or.inr hk)
      have h2 := w1 k (Or.inr (by
        show 0 + env.spec_.base_.length ≤ k
        omega))
      rw [hxs', hys']
      exact ⟨h1.1.trans h2.1, h1.2.trans h2.2⟩
  · intro i hlo _
    exact sampleAt_store INTERPRET env x y i hlo
  · intro maxIterations hbig
    have hz := samples_zero_of_preserved classicOp
      (exampleEnv maxIterations 2 0 : MandelbrotEnv Unit ℝ ℝ) 0 0 rfl
      (fun i s => classicOp_preserves_zero _ i s)
    have hnone : ∀ j : Nat,
        ¬ bailsAt classicOp (exampleEnv maxIterations 2 0 : MandelbrotEnv Unit ℝ ℝ) 0 0 j ∧
        ¬ convergesAt classicOp (exampleEnv maxIterations 2 0 : MandelbrotEnv Unit ℝ ℝ) 0 0 j := by
      intro j
      have hp := prev_zero_of_samples_zero classicOp
        (exampleEnv maxIterations 2 0 : MandelbrotEnv Unit ℝ ℝ) 0 0 rfl j (fun k _ => hz k)
      have ht := zero_sample_tests _ (hz j).1 (hz j).2 hp.1 hp.2
        (exampleEnv maxIterations 2 0 : MandelbrotEnv Unit ℝ ℝ).spec_.bailout_
        (exampleEnv maxIterations 2 0 : MandelbrotEnv Unit ℝ ℝ).spec_.epsilon_
      exact ⟨ht.1, fun hc => (ht.2.mp hc) rfl⟩
    have hs := sampleAt_store classicOp (exampleEnv maxIterations 2 0 : MandelbrotEnv Unit ℝ ℝ)
      0 0 historyCapacity (Nat.zero_le _)
    have h := calc_of_no_stop Real.log id classicOp
      (exampleEnv maxIterations 2 0 : MandelbrotEnv Unit ℝ ℝ) 0 0 (fun j _ _ => hnone j)
    have hpos : (0 : Int) ≤ maxIterations :=
      le_trans (Int.ofNat_nonneg historyCapacity) (le_of_lt hbig)
    have hw := h.2.2.2 hpos
    refine ⟨fun j _ => hnone j, hs.1, ?_, ?_⟩
    · rw [hs.2.2, List.mem_map]
      exact ⟨historyCapacity, List.mem_range.mpr (Nat.lt_succ_self _), rfl⟩
    · rw [hw, List.mem_map]
      refine ⟨historyCapacity, ?_, rfl⟩
      rw [List.mem_range]
      have e : (exampleEnv maxIterations 2 0 : MandelbrotEnv Unit ℝ ℝ).spec_.maxIterations_
          = maxIterations := rfl
      rw [e]
      omega

end HistoryClaim

/-- The end-to-end configuration (no warm-up formula, 50 iterations) at the point (-2, -2):
iteration 0 stores its sample at index 0; and with 10241 iterations at `c = 0` the store of
iteration 10240 goes to index 10240. -/
theorem history_write_indices_witness :
    ((exampleEnv 50 2 0 : MandelbrotEnv Unit ℝ ℝ).spec_.base_.length ≤ 0 ∧
      0 ≤ historyCapacity ∧
      (sampleAt classicOp (exampleEnv 50 2 0 : MandelbrotEnv Unit ℝ ℝ) (-2) (-2) 0).xs 0 =
        (sampleAt classicOp (exampleEnv 50 2 0 : MandelbrotEnv Unit ℝ ℝ) (-2) (-2) 0).nr) ∧
    ((historyCapacity : Int) < 10241 ∧
      (historyCapacity, historyCapacity) ∈
        ((exampleEnv 10241 2 0 : MandelbrotEnv Unit ℝ ℝ).calc Real.log id classicOp
          0 0).writes) :=
  ⟨⟨Nat.le_refl 0, Nat.zero_le _,
    ((history_write_indices Real.log id classicOp (exampleEnv 50 2 0 : MandelbrotEnv Unit ℝ ℝ)
      (-2) (-2)).2.1 0 (Nat.le_refl 0) (Nat.zero_le _)).1⟩,
   ⟨by decide,
    ((history_write_indices Real.log id classicOp (exampleEnv 50 2 0 : MandelbrotEnv Unit ℝ ℝ)
      (-2) (-2)).2.2 10241 (by decide)).2.2.2⟩⟩

section Construction

variable {E G Tr T V : Type}
variable [IntCast T] [Add T] [Sub T] [Mul T] [Div T] [LT T] [∀ a b : T, Decidable (a < b)]
variable [IntCast V]

/-- C9, as the code has it. (1) `createGenerator(width, height)` adds no check of its own: for
every base constructor it fails exactly when `RenderingGenerator(width, height, 2, &spec)`
fails, with that error, and otherwise returns the generator built from it.  (2) With the base
constructor as the spec describes it, every call with `width ≤ 0` or `height ≤ 0` fails with a
configuration error, and every call with positive dimensions succeeds with `width` and
`height` unchanged.  (3) The `Mandelbrot` constructor stores `maxIterations` and `bailout`
unchanged whatever they are.  (4) `calc` runs on any such specification: with
`maxIterations ≤ base.size` it stores the `base.size` warm-up samples and nothing else, and
returns `type = 0`, `value = 0`, `n_ = maxIterations`. -/
theorem construction_unchecked (t : Tr) (base : List (Interpreter T))
    (iteration : Interpreter T) (maxIterations : Int) (bailout epsilon : T)
    (bailoutPalette : ColorPalette V)
    (baseConstructor : Int → Int → Int → Mandelbrot Tr T V → Except E G)
    (setColorProvider : G → Mandelbrot Tr T V → G) (width height : Int)
    (log : T → T) (toFloat : T → V) (INTERPRET : OpMacro T)
    (xs0 ys0 : Nat → T) (n0 : Int) (x y : T) :
    ((Mandelbrot.new t base iteration maxIterations bailout epsilon
        bailoutPalette).createGenerator baseConstructor setColorProvider width height =
      match baseConstructor width height 2
          (Mandelbrot.new t base iteration maxIterations bailout epsilon bailoutPalette) with
      | Except.error err => Except.error err
      | Except.ok g =>
        Except.ok
          { rendering := setColorProvider g
              (Mandelbrot.new t base iteration maxIterations bailout epsilon bailoutPalette)
            spec_ := Mandelbrot.new t base iteration maxIterations bailout epsilon
              bailoutPalette }) ∧
    ((width ≤ 0 ∨ height ≤ 0 →
        (Mandelbrot.new t base iteration maxIterations bailout epsilon
          bailoutPalette).createGenerator RenderingGenerator.new
            RenderingGenerator.setColorProvider width height =
          Except.error ConfigError.invalidDimensions) ∧
      (0 < width → 0 < height →
        (Mandelbrot.new t base iteration maxIterations bailout epsilon
          bailoutPalette).createGenerator RenderingGenerator.new
            RenderingGenerator.setColorProvider width height =
          Except.ok
            { rendering :=
                { width := width, height := height, threadCount := 2
                  spec := Mandelbrot.new t base iteration maxIterations bailout epsilon
                    bailoutPalette
                  colorProvider := some (Mandelbrot.new t base iteration maxIterations bailout
                    epsilon bailoutPalette) }
              spec_ := Mandelbrot.new t base iteration maxIterations bailout epsilon
                bailoutPalette })) ∧
    ((Mandelbrot.new t base iteration maxIterations bailout epsilon
        bailoutPalette).maxIterations_ = maxIterations ∧
      (Mandelbrot.new t base iteration maxIterations bailout epsilon bailoutPalette).bailout_
        = bailout) ∧
    (maxIterations ≤ (base.length : Int) →
      ((MandelbrotEnv.new
          (Mandelbrot.new t base iteration maxIterations bailout epsilon bailoutPalette)
          xs0 ys0 n0).calc log toFloat INTERPRET x y).type = 0 ∧
      ((MandelbrotEnv.new
          (Mandelbrot.new t base iteration maxIterations bailout epsilon bailoutPalette)
          xs0 ys0 n0).calc log toFloat INTERPRET x y).value = ((0 : Int) : V) ∧
      ((MandelbrotEnv.new
          (Mandelbrot.new t base iteration maxIterations bailout epsilon bailoutPalette)
          xs0 ys0 n0).calc log toFloat INTERPRET x y).n_ = maxIterations ∧
      ((MandelbrotEnv.new
          (Mandelbrot.new t base iteration maxIterations bailout epsilon bailoutPalette)
          xs0 ys0 n0).calc log toFloat INTERPRET x y).writes =
        (List.range base.length).map (fun k => (k, k))) := by
  refine ⟨rfl, ⟨?_, ?_⟩, ⟨rfl, rfl⟩, ?_⟩
  · intro h
    simp only [Mandelbrot.createGenerator, MandelbrotGenerator.new, RenderingGenerator.new,
      if_pos h]
  · intro hw hh
    have h : ¬ (width ≤ 0 ∨ height ≤ 0) := by omega
    simp only [Mandelbrot.createGenerator, MandelbrotGenerator.new, RenderingGenerator.new,
      if_neg h, RenderingGenerator.setColorProvider]
  · intro hle
    have hz : (maxIterations - (base.length : Int)).toNat = 0 := by omega
    obtain ⟨t0, x0⟩ := tracked_loopStart
      (MandelbrotEnv.new
        (Mandelbrot.new t base iteration maxIterations bailout epsilon bailoutPalette)
        xs0 ys0 n0) x y
    have hw := t0.2
    rw [x0] at hw
    unfold MandelbrotEnv.calc
    simp only [MandelbrotEnv.new, Mandelbrot.new, hz, loop, true_and]
    exact hw

end Construction

/-- C9 as stated fails. A specification built with `maxIterations = 0` and `bailout = 0` is
accepted as it is, and `calc` runs on it, returning interior with `n_ = 0`. -/
theorem construction_counterexample :
    (Mandelbrot.new () [] oneOp 0 0 0 greyPalette : Mandelbrot Unit ℝ ℝ).maxIterations_ = 0 ∧
    (Mandelbrot.new () [] oneOp 0 0 0 greyPalette : Mandelbrot Unit ℝ ℝ).bailout_ = 0 ∧
    ((MandelbrotEnv.new (Mandelbrot.new () [] oneOp 0 0 0 greyPalette : Mandelbrot Unit ℝ ℝ)
        (fun _ => 0) (fun _ => 0) 0).calc Real.log id classicOp 1 1).type = 0 ∧
    ((MandelbrotEnv.new (Mandelbrot.new () [] oneOp 0 0 0 greyPalette : Mandelbrot Unit ℝ ℝ)
        (fun _ => 0) (fun _ => 0) 0).calc Real.log id classicOp 1 1).n_ = 0 :=
  ⟨rfl, rfl, rfl, rfl⟩

/-- A specification with `maxIterations = -5`, `bailout = 0` and no warm-up formula:
`createGenerator(0, 16)` fails with the configuration error of the base constructor, and
`calc` returns interior with `n_ = -5` without a store. -/
theorem construction_unchecked_witness :
    ((0 : Int) ≤ 0 ∨ (16 : Int) ≤ 0) ∧
    ((-5 : Int) ≤ (([] : List (Interpreter ℝ)).length : Int)) ∧
    (Mandelbrot.new () [] oneOp (-5) 0 0 greyPalette : Mandelbrot Unit ℝ ℝ).createGenerator
        RenderingGenerator.new RenderingGenerator.setColorProvider 0 16 =
      Except.error ConfigError.invalidDimensions ∧
    ((MandelbrotEnv.new (Mandelbrot.new () [] oneOp (-5) 0 0 greyPalette : Mandelbrot Unit ℝ ℝ)
        (fun _ => 0) (fun _ => 0) 0).calc Real.log id classicOp 1 1).n_ = -5 ∧
    ((MandelbrotEnv.new (Mandelbrot.new () [] oneOp (-5) 0 0 greyPalette : Mandelbrot Unit ℝ ℝ)
        (fun _ => 0) (fun _ => 0) 0).calc Real.log id classicOp 1 1).writes = [] :=
  have h := construction_unchecked () ([] : List (Interpreter ℝ)) oneOp (-5) (0 : ℝ) 0
    (greyPalette : ColorPalette ℝ)
    (RenderingGenerator.new : Int → Int → Int → Mandelbrot Unit ℝ ℝ →
      Except ConfigError (RenderingGenerator Unit ℝ ℝ))
    RenderingGenerator.setColorProvider 0 16
    Real.log id classicOp (fun _ => 0) (fun _ => 0) 0 1 1
  ⟨Or.inl (le_refl 0), by decide, h.2.1.1 (Or.inl (le_refl 0)), (h.2.2.2 (by decide)).2.2.1,
    (h.2.2.2 (by decide)).2.2.2⟩

end QFractals
